import Mathlib

/-!
Shallow embedding of the segregated-fit allocator in `mm.c` (malloc-lab,
team "Mother Hen").  The code is written for an ILP32 platform (4-byte
`size_t`, 4-byte pointers, as the block diagrams and `unsigned int` stores
in the source show), so machine words are modelled as `Nat` reduced
modulo `2^32` at every store.  Heap memory is a map from byte addresses
to 32-bit words (all accesses in the program are 4-byte aligned),
represented as a write history (an association list read through
`lookupW`, unwritten addresses reading as 0 — the pristine heap).  The
break pointer and the segregated list heads are explicit state, and the
`mem_sbrk` provider carries a capacity `limit` so that heap exhaustion
is expressible.  `NULL` is the address `0`.
-/

set_option maxRecDepth 100000
set_option maxHeartbeats 1000000

namespace MM

/-- Read a write-history map: the most recent write to `x` wins;
never-written locations read as 0. -/
def lookupW : List (Nat × Nat) → Nat → Nat
  | [], _ => 0
  | (a, v) :: m, x => if x = a then v else lookupW m x

/-- 2^32, the modulus of the 32-bit machine words. -/
def M32 : Nat := 4294967296

/-- 32-bit unsigned subtraction `a - b` (size_t arithmetic). -/
def sub32 (a b : Nat) : Nat := (a % M32 + (M32 - b % M32)) % M32

/-- Reinterpret a 32-bit unsigned value as a signed `int`. -/
def toInt32 (v : Nat) : Int :=
  if v % M32 < 2147483648 then (v % M32 : Int) else (v % M32 : Int) - (M32 : Int)

/-- Allocator state: word memory, break pointer, sbrk capacity, and the
`segregated_free_lists` array (indices `0..19`; a head reading 0 is the
null head). -/
structure State where
  mem : List (Nat × Nat)
  brk : Nat
  limit : Nat
  lists : List (Nat × Nat)
deriving DecidableEq

/-- `WSIZE`: word and header/footer size (bytes). -/
def WSIZE : Nat := 4

/-- `DSIZE`: double word size (bytes). -/
def DSIZE : Nat := 8

/-- `INITCHUNKSIZE = 1<<6`. -/
def INITCHUNKSIZE : Nat := 64

/-- `CHUNKSIZE = 1<<12`. -/
def CHUNKSIZE : Nat := 4096

/-- `LISTLIMIT`: number of segregated lists. -/
def LISTLIMIT : Nat := 20

/-- `REALLOC_BUFFER = 1<<7`. -/
def REALLOC_BUFFER : Nat := 128

/-- `ALIGN(size) = ((size) + (ALIGNMENT-1)) & ~0x7` on 32-bit `size_t`
(`~0x7` is `2^32 - 8`). -/
def ALIGN (size : Nat) : Nat := ((size + 7) % M32) &&& (M32 - 8)

/-- `PACK(size, alloc) = (size) | (alloc & 0x1)`. -/
def PACK (size alloc : Nat) : Nat := size ||| (alloc &&& 1)

/-- `GET(p) = *(size_t *)p`. -/
def GET (st : State) (p : Nat) : Nat := lookupW st.mem p

/-- `GET_TAG(p) = GET(p) & 0x2`. -/
def GET_TAG (st : State) (p : Nat) : Nat := GET st p &&& 2

/-- `PUT_NOTAG(p, val)`: store clearing the reallocation bit. -/
def PUT_NOTAG (st : State) (p v : Nat) : State :=
  { st with mem := (p, v % M32) :: st.mem }

/-- `PUT(p, val) = (*(unsigned int *)(p) = (val) | GET_TAG(p))`:
store preserving the reallocation bit of the target word. -/
def PUT (st : State) (p v : Nat) : State :=
  { st with mem := (p, (v ||| GET_TAG st p) % M32) :: st.mem }

/-- `SET_PTR(p, ptr)`: store a predecessor/successor pointer. -/
def SET_PTR (st : State) (p v : Nat) : State :=
  { st with mem := (p, v % M32) :: st.mem }

/-- `REMOVE_RATAG(p)` in the source returns `GET(p) & 0x2` and performs
no store; callers invoke it for (absent) side effect. -/
def REMOVE_RATAG (st : State) (p : Nat) : Nat := GET st p &&& 2

/-- `SET_RATAG(p)` in the source returns `GET(p) | 0x2` and performs
no store; callers invoke it for (absent) side effect. -/
def SET_RATAG (st : State) (p : Nat) : Nat := GET st p ||| 2

/-- `GET_SIZE(p) = GET(p) & ~0x7` (32-bit `~0x7` is `2^32 - 8`). -/
def GET_SIZE (st : State) (p : Nat) : Nat := GET st p &&& (M32 - 8)

/-- `GET_ALLOC(p) = GET(p) & 0x1`. -/
def GET_ALLOC (st : State) (p : Nat) : Nat := GET st p &&& 1

/-- `HDRP(bp) = (char *)bp - WSIZE`. -/
def HDRP (bp : Nat) : Nat := bp - WSIZE

/-- `FTRP(bp) = (char *)bp + GET_SIZE(HDRP(bp)) - DSIZE`. -/
def FTRP (st : State) (bp : Nat) : Nat := bp + GET_SIZE st (HDRP bp) - DSIZE

/-- `NEXT_BLKP(ptr) = (char *)ptr + GET_SIZE((char *)ptr - WSIZE)`. -/
def NEXT_BLKP (st : State) (p : Nat) : Nat := p + GET_SIZE st (p - WSIZE)

/-- `PREV_BLKP(ptr) = (char *)ptr - GET_SIZE((char *)ptr - DSIZE)`. -/
def PREV_BLKP (st : State) (p : Nat) : Nat := p - GET_SIZE st (p - DSIZE)

/-- `PRED_PTR(ptr) = ptr`. -/
def PRED_PTR (p : Nat) : Nat := p

/-- `SUCC_PTR(ptr) = ptr + WSIZE`. -/
def SUCC_PTR (p : Nat) : Nat := p + WSIZE

/-- `PRED(ptr) = *(char **)(ptr)`. -/
def PRED (st : State) (p : Nat) : Nat := GET st p

/-- `SUCC(ptr) = *(char **)(SUCC_PTR(ptr))`. -/
def SUCC (st : State) (p : Nat) : Nat := GET st (SUCC_PTR p)

/-- Read a segregated-list head: `segregated_free_lists[i]`. -/
def listHead (st : State) (i : Nat) : Nat := lookupW st.lists i

/-- Write a segregated-list head: `segregated_free_lists[i] = v`. -/
def setListHead (st : State) (i v : Nat) : State :=
  { st with lists := (i, v) :: st.lists }

/-- `mem_sbrk(incr)`: grow the break, or fail if the capacity is
exceeded; returns the old break on success. -/
def mem_sbrk (st : State) (incr : Nat) : Option (Nat × State) :=
  if st.brk + incr ≤ st.limit then some (st.brk, { st with brk := st.brk + incr })
  else none

/-- Structural-recursion engine for the size-class loop; the counter is
an upper bound on the remaining iterations (the loop increments `list`
each round and stops at `LISTLIMIT - 1`). -/
def selectListSizeGo : Nat → Nat → Nat → Nat × Nat
  | 0, list, size => (list, size)
  | k + 1, list, size =>
    if list < LISTLIMIT - 1 ∧ 1 < size then selectListSizeGo k (list + 1) (size >>> 1)
    else (list, size)

/-- The size-class loop shared by `insert_node` and `delete_node`:
`while ((list < LISTLIMIT - 1) && (size > 1)) { size >>= 1; list++; }`.
Returns the final `(list, size)` pair — the loop destroys `size`. -/
def selectListSize (list size : Nat) : Nat × Nat :=
  selectListSizeGo (LISTLIMIT - 1 - list) list size

/-- The ordered-insertion search loop of `insert_node`:
`while ((search_ptr != NULL) && (size > GET_SIZE(HDRP(search_ptr))))
 { insert_ptr = search_ptr; search_ptr = PRED(search_ptr); }`.
`size` here is the value left over by the size-class loop.  The walk is
fuelled; on fuel exhaustion the current `(search_ptr, insert_ptr)` pair
is returned. -/
def insertSearch (st : State) (size : Nat) : Nat → Nat → Nat → Nat × Nat
  | 0, s, i => (s, i)
  | fuel + 1, s, i =>
    if s ≠ 0 ∧ GET_SIZE st (HDRP s) < size then insertSearch st size fuel (PRED st s) s
    else (s, i)

/-- `insert_node(ptr, size)` from `mm.c`. -/
def insert_node (fuel : Nat) (st : State) (ptr size0 : Nat) : State :=
  let ls := selectListSize 0 size0
  let sr := insertSearch st ls.2 fuel (listHead st ls.1) 0
  if sr.1 ≠ 0 then
    if sr.2 ≠ 0 then
      let st1 := SET_PTR st (PRED_PTR ptr) sr.1
      let st2 := SET_PTR st1 (SUCC_PTR sr.1) ptr
      let st3 := SET_PTR st2 (SUCC_PTR ptr) sr.2
      SET_PTR st3 (PRED_PTR sr.2) ptr
    else
      let st1 := SET_PTR st (PRED_PTR ptr) sr.1
      let st2 := SET_PTR st1 (SUCC_PTR sr.1) ptr
      let st3 := SET_PTR st2 (SUCC_PTR ptr) 0
      setListHead st3 ls.1 ptr
  else
    if sr.2 ≠ 0 then
      let st1 := SET_PTR st (PRED_PTR ptr) 0
      let st2 := SET_PTR st1 (SUCC_PTR ptr) sr.2
      SET_PTR st2 (PRED_PTR sr.2) ptr
    else
      let st1 := SET_PTR st (PRED_PTR ptr) 0
      let st2 := SET_PTR st1 (SUCC_PTR ptr) 0
      setListHead st2 ls.1 ptr

/-- `delete_node(ptr)` from `mm.c`.  Every macro occurrence re-reads the
state current at its program point, exactly as the C text does. -/
def delete_node (st : State) (ptr : Nat) : State :=
  let ls := selectListSize 0 (GET_SIZE st (HDRP ptr))
  if PRED st ptr ≠ 0 then
    if SUCC st ptr ≠ 0 then
      let st1 := SET_PTR st (SUCC_PTR (PRED st ptr)) (SUCC st ptr)
      SET_PTR st1 (PRED_PTR (SUCC st1 ptr)) (PRED st1 ptr)
    else
      let st1 := SET_PTR st (SUCC_PTR (PRED st ptr)) 0
      setListHead st1 ls.1 (PRED st1 ptr)
  else
    if SUCC st ptr ≠ 0 then
      SET_PTR st (PRED_PTR (SUCC st ptr)) 0
    else
      setListHead st ls.1 0

/-- `coalesce(ptr)` from `mm.c`. -/
def coalesce (fuel : Nat) (st : State) (ptr : Nat) : Nat × State :=
  let prev_alloc0 := GET_ALLOC st (HDRP (PREV_BLKP st ptr))
  let next_alloc := GET_ALLOC st (HDRP (NEXT_BLKP st ptr))
  let size := GET_SIZE st (HDRP ptr)
  -- do not coalesce with the previous block if it carries the reallocation tag
  let prev_alloc := if GET_TAG st (HDRP (PREV_BLKP st ptr)) ≠ 0 then 1 else prev_alloc0
  if prev_alloc ≠ 0 ∧ next_alloc ≠ 0 then
    (ptr, st)
  else if prev_alloc ≠ 0 ∧ next_alloc = 0 then
    let st1 := delete_node st ptr
    let st2 := delete_node st1 (NEXT_BLKP st1 ptr)
    let size2 := size + GET_SIZE st2 (HDRP (NEXT_BLKP st2 ptr))
    let st3 := PUT st2 (HDRP ptr) (PACK size2 0)
    let st4 := PUT st3 (FTRP st3 ptr) (PACK size2 0)
    (ptr, insert_node fuel st4 ptr size2)
  else if prev_alloc = 0 ∧ next_alloc ≠ 0 then
    let st1 := delete_node st ptr
    let st2 := delete_node st1 (PREV_BLKP st1 ptr)
    let size2 := size + GET_SIZE st2 (HDRP (PREV_BLKP st2 ptr))
    let st3 := PUT st2 (FTRP st2 ptr) (PACK size2 0)
    let st4 := PUT st3 (HDRP (PREV_BLKP st3 ptr)) (PACK size2 0)
    let ptr2 := PREV_BLKP st4 ptr
    (ptr2, insert_node fuel st4 ptr2 size2)
  else
    let st1 := delete_node st ptr
    let st2 := delete_node st1 (PREV_BLKP st1 ptr)
    let st3 := delete_node st2 (NEXT_BLKP st2 ptr)
    let size2 := size + GET_SIZE st3 (HDRP (PREV_BLKP st3 ptr)) +
      GET_SIZE st3 (HDRP (NEXT_BLKP st3 ptr))
    let st4 := PUT st3 (HDRP (PREV_BLKP st3 ptr)) (PACK size2 0)
    let st5 := PUT st4 (FTRP st4 (NEXT_BLKP st4 ptr)) (PACK size2 0)
    let ptr2 := PREV_BLKP st5 ptr
    (ptr2, insert_node fuel st5 ptr2 size2)

/-- `place(ptr, asize)` from `mm.c`.  `remainder = ptr_size - asize` is
32-bit `size_t` arithmetic. -/
def place (fuel : Nat) (st : State) (ptr asize : Nat) : Nat × State :=
  let ptr_size := GET_SIZE st (HDRP ptr)
  let remainder := sub32 ptr_size asize
  let st1 := delete_node st ptr
  if remainder ≤ DSIZE * 2 then
    -- do not split the block
    let st2 := PUT st1 (HDRP ptr) (PACK ptr_size 1)
    let st3 := PUT st2 (FTRP st2 ptr) (PACK ptr_size 1)
    (ptr, st3)
  else if 100 ≤ asize then
    -- split, allocation at the upper end
    let st2 := PUT st1 (HDRP ptr) (PACK remainder 0)
    let st3 := PUT st2 (FTRP st2 ptr) (PACK remainder 0)
    let st4 := PUT_NOTAG st3 (HDRP (NEXT_BLKP st3 ptr)) (PACK asize 1)
    let st5 := PUT_NOTAG st4 (FTRP st4 (NEXT_BLKP st4 ptr)) (PACK asize 1)
    let st6 := insert_node fuel st5 ptr remainder
    (NEXT_BLKP st6 ptr, st6)
  else
    -- split, allocation at the lower end
    let st2 := PUT st1 (HDRP ptr) (PACK asize 1)
    let st3 := PUT st2 (FTRP st2 ptr) (PACK asize 1)
    let st4 := PUT_NOTAG st3 (HDRP (NEXT_BLKP st3 ptr)) (PACK remainder 0)
    let st5 := PUT_NOTAG st4 (FTRP st4 (NEXT_BLKP st4 ptr)) (PACK remainder 0)
    let st6 := insert_node fuel st5 (NEXT_BLKP st5 ptr) remainder
    (ptr, st6)

/-- `extend_heap(size)` from `mm.c`. -/
def extend_heap (fuel : Nat) (st : State) (size : Nat) : Option (Nat × State) :=
  let asize := ALIGN size
  match mem_sbrk st asize with
  | none => none
  | some (ptr, st0) =>
    let st1 := PUT_NOTAG st0 (HDRP ptr) (PACK asize 0)
    let st2 := PUT_NOTAG st1 (FTRP st1 ptr) (PACK asize 0)
    let st3 := PUT_NOTAG st2 (HDRP (NEXT_BLKP st2 ptr)) (PACK 0 1)
    let st4 := insert_node fuel st3 ptr asize
    some (coalesce fuel st4 ptr)

/-- The inner scan of `mm_malloc`'s search:
`while ((ptr != NULL) && ((asize > GET_SIZE(HDRP(ptr))) || GET_TAG(HDRP(ptr))))
 ptr = PRED(ptr);`. -/
def searchLoop (st : State) (asize : Nat) : Nat → Nat → Nat
  | 0, p => p
  | fuel + 1, p =>
    if p ≠ 0 ∧ (GET_SIZE st (HDRP p) < asize ∨ GET_TAG st (HDRP p) ≠ 0) then
      searchLoop st asize fuel (PRED st p)
    else p

/-- Structural-recursion engine for the outer list-walking loop of
`mm_malloc`'s search; the counter counts the lists left to visit. -/
def searchListsGo (st : State) (asize fuel : Nat) : Nat → Nat → Nat → Nat
  | 0, _, _ => 0
  | k + 1, list, searchsize =>
    let ptr :=
      if list = LISTLIMIT - 1 ∨ (searchsize ≤ 1 ∧ listHead st list ≠ 0) then
        searchLoop st asize fuel (listHead st list)
      else 0
    if ptr ≠ 0 then ptr else searchListsGo st asize fuel k (list + 1) (searchsize >>> 1)

/-- The outer list-walking loop of `mm_malloc`'s search:
`while (list < LISTLIMIT) { ... searchsize >>= 1; list++; }`. -/
def searchLists (st : State) (asize fuel : Nat) (list searchsize : Nat) : Nat :=
  searchListsGo st asize fuel (LISTLIMIT - list) list searchsize

/-- The adjusted block size computed identically in `mm_malloc` and
`mm_realloc`: `if (size <= DSIZE) asize = 2*DSIZE; else asize =
ALIGN(size+DSIZE);`. -/
def adjustSize (size : Nat) : Nat :=
  if size ≤ DSIZE then 2 * DSIZE else ALIGN (size + DSIZE)

/-- `mm_malloc(size)` from `mm.c`; returns the payload pointer (0 for
`NULL`) together with the resulting state. -/
def mm_malloc (fuel : Nat) (st : State) (size : Nat) : Nat × State :=
  if size = 0 then (0, st)
  else
    let asize := adjustSize size
    let p0 := searchLists st asize fuel 0 asize
    match (if p0 = 0 then extend_heap fuel st (max asize CHUNKSIZE) else some (p0, st)) with
    | none => (0, st)
    | some (ptr, st1) => place fuel st1 ptr asize

/-- `mm_free(ptr)` from `mm.c`.  The `REMOVE_RATAG` call computes the
tag of the next block's header and discards it, exactly as the source
does (no store is performed). -/
def mm_free (fuel : Nat) (st : State) (ptr : Nat) : State :=
  let size := GET_SIZE st (HDRP ptr)
  let _ := REMOVE_RATAG st (HDRP (NEXT_BLKP st ptr))
  let st1 := PUT st (HDRP ptr) (PACK size 0)
  let st2 := PUT st1 (FTRP st1 ptr) (PACK size 0)
  let st3 := insert_node fuel st2 ptr size
  (coalesce fuel st3 ptr).2

/-- Byte read from the word memory (little-endian). -/
def getByte (st : State) (a : Nat) : Nat :=
  lookupW st.mem (a - a % 4) / 2 ^ (8 * (a % 4)) % 256

/-- Byte write into the word memory (little-endian read-modify-write). -/
def setByte (st : State) (a v : Nat) : State :=
  let w := lookupW st.mem (a - a % 4)
  let sh := 2 ^ (8 * (a % 4))
  { st with mem := (a - a % 4, w - w / sh % 256 * sh + v % 256 * sh) :: st.mem }

/-- Forward byte-copy loop of `memcpy(dst, src, n)`. -/
def memcpyGo (dst src : Nat) : Nat → State → Nat → State
  | 0, st, _ => st
  | k + 1, st, i => memcpyGo dst src k (setByte st (dst + i) (getByte st (src + i))) (i + 1)

/-- `memcpy(dst, src, n)` (byte semantics). -/
def memcpy (st : State) (dst src n : Nat) : State := memcpyGo dst src n st 0

/-- The tail of `mm_realloc`: recompute `block_buffer` and, when it has
dropped below `2 * REALLOC_BUFFER`, invoke `SET_RATAG` on the next
block's header — which in this source computes a value and stores
nothing. -/
def realloc_finish (st : State) (new_ptr new_size : Nat) : Nat × State :=
  let block_buffer : Int := toInt32 (sub32 (GET_SIZE st (HDRP new_ptr)) new_size)
  let _ := if block_buffer < 2 * (REALLOC_BUFFER : Int) then
    SET_RATAG st (HDRP (NEXT_BLKP st new_ptr)) else 0
  (new_ptr, st)

/-- `mm_realloc(ptr, size)` from `mm.c`.  `remainder`, `extendsize` and
`block_buffer` are C `int`s, modelled as the signed reinterpretation of
the 32-bit unsigned expressions assigned to them. -/
def mm_realloc (fuel : Nat) (st : State) (ptr size : Nat) : Nat × State :=
  if size = 0 then (0, st)
  else
    let new_size := adjustSize size + REALLOC_BUFFER
    let block_buffer : Int := toInt32 (sub32 (GET_SIZE st (HDRP ptr)) new_size)
    if block_buffer < 0 then
      if GET_ALLOC st (HDRP (NEXT_BLKP st ptr)) = 0 ∨ GET_SIZE st (HDRP (NEXT_BLKP st ptr)) = 0 then
        let remainder : Int := toInt32 (sub32
          ((GET_SIZE st (HDRP ptr) + GET_SIZE st (HDRP (NEXT_BLKP st ptr))) % M32) new_size)
        let ext : Option (State × Int) :=
          if remainder < 0 then
            let extendsize : Int := max (-remainder) (CHUNKSIZE : Int)
            match extend_heap fuel st extendsize.toNat with
            | none => none
            | some (_, st1) => some (st1, remainder + extendsize)
          else some (st, remainder)
        match ext with
        | none => (0, st)
        | some (st1, remainder1) =>
          let st2 := delete_node st1 (NEXT_BLKP st1 ptr)
          -- do not split the block
          let nsz := ((new_size : Int) + remainder1).toNat
          let st3 := PUT_NOTAG st2 (HDRP ptr) (PACK nsz 1)
          let st4 := PUT_NOTAG st3 (FTRP st3 ptr) (PACK nsz 1)
          realloc_finish st4 ptr new_size
      else
        let ms := mm_malloc fuel st (new_size - DSIZE)
        let st1 := memcpy ms.2 ms.1 ptr (min size new_size)
        let st2 := mm_free fuel st1 ptr
        realloc_finish st2 ms.1 new_size
    else
      realloc_finish st ptr new_size

/-- `mm_init()` from `mm.c`; `none` models the `-1` failure return.
The source zeroes all `LISTLIMIT` list heads; in the write-history
representation the all-null directory is the empty history. -/
def mm_init (fuel : Nat) (st : State) : Option State :=
  let st0 := { st with lists := ([] : List (Nat × Nat)) }
  match mem_sbrk st0 (4 * WSIZE) with
  | none => none
  | some (heap_start, st1) =>
    let st2 := PUT_NOTAG st1 heap_start 0
    let st3 := PUT_NOTAG st2 (heap_start + 1 * WSIZE) (PACK DSIZE 1)
    let st4 := PUT_NOTAG st3 (heap_start + 2 * WSIZE) (PACK DSIZE 1)
    let st5 := PUT_NOTAG st4 (heap_start + 3 * WSIZE) (PACK 0 1)
    match extend_heap fuel st5 INITCHUNKSIZE with
    | none => none
    | some _r => some _r.2

/-- The pristine machine state handed to `mm_init`: zeroed memory, break
at the bottom, a given sbrk capacity. -/
def initState (limit : Nat) : State := ⟨[], 0, limit, []⟩

/-- States reachable from a successful `mm_init` by the public
operations.  `free` and `resize` are invoked on 8-aligned payload
pointers (every payload this allocator hands out is 8-aligned). -/
inductive Reachable : State → Prop
  | init (limit fuel : Nat) (st : State) :
      mm_init fuel (initState limit) = some st → Reachable st
  | malloc (st : State) (s fuel : Nat) :
      Reachable st → Reachable (mm_malloc fuel st s).2
  | free (st : State) (p fuel : Nat) :
      Reachable st → p % 8 = 0 → Reachable (mm_free fuel st p)
  | realloc (st : State) (p s fuel : Nat) :
      Reachable st → p % 8 = 0 → Reachable (mm_realloc fuel st p s).2

/-- The PRED-chain of a segregated list read from a head pointer: the
traversal order `head, PRED(head), PRED(PRED(head)), …` stopping at
the null pointer (fuelled). -/
def predChain (st : State) : Nat → Nat → List Nat
  | 0, _ => []
  | fuel + 1, p => if p = 0 then [] else p :: predChain st fuel (PRED st p)

/-- Strictly descending block addresses along a traversal. -/
def addrDescending : List Nat → Bool
  | [] => true
  | [_] => true
  | a :: b :: r => decide (b < a) && addrDescending (b :: r)

/-- Every word of the heap and every list head has bit 1 (the RA bit)
clear: `w % 4 < 2` says exactly that the second-lowest bit of `w` is
0.  This is the key invariant behind the reallocation-tag claims: this
source can never make it false because `SET_RATAG` performs no
store. -/
def TagFree (st : State) : Prop :=
  (∀ a, GET st a % 4 < 2) ∧ (∀ i, listHead st i % 4 < 2)

/-- The heap addresses written by `delete_node st ptr` (mirrors its
branch structure; the second address of the first branch is re-read
from the state after the first store, exactly as the code does). -/
def deleteWrites (st : State) (ptr : Nat) : List Nat :=
  if PRED st ptr ≠ 0 then
    if SUCC st ptr ≠ 0 then
      [SUCC_PTR (PRED st ptr),
        PRED_PTR (SUCC (SET_PTR st (SUCC_PTR (PRED st ptr)) (SUCC st ptr)) ptr)]
    else [SUCC_PTR (PRED st ptr)]
  else
    if SUCC st ptr ≠ 0 then [PRED_PTR (SUCC st ptr)] else []

/-- The heap addresses written by `insert_node fuel st ptr size0`. -/
def insertWrites (fuel : Nat) (st : State) (ptr size0 : Nat) : List Nat :=
  let ls := selectListSize 0 size0
  let sr := insertSearch st ls.2 fuel (listHead st ls.1) 0
  if sr.1 ≠ 0 then
    if sr.2 ≠ 0 then [PRED_PTR ptr, SUCC_PTR sr.1, SUCC_PTR ptr, PRED_PTR sr.2]
    else [PRED_PTR ptr, SUCC_PTR sr.1, SUCC_PTR ptr]
  else
    if sr.2 ≠ 0 then [PRED_PTR ptr, SUCC_PTR ptr, PRED_PTR sr.2]
    else [PRED_PTR ptr, SUCC_PTR ptr]

/-- The heap words `coalesce st b` reads (headers of `B`, `P`, `N` and
`P`'s footer). -/
def coalesceReads (st : State) (b : Nat) : List Nat :=
  [HDRP b, HDRP (PREV_BLKP st b), HDRP (NEXT_BLKP st b), b - DSIZE]

/-- Non-aliasing of `coalesce`'s free-list unlink stores with the heap
words it reads: no `delete_node` call the four cases can make writes a
link word on top of a header or footer that is read afterwards. -/
def coalesceFrameOK (st : State) (b : Nat) : Prop :=
  ∀ y ∈ coalesceReads st b,
    y ∉ deleteWrites st b ∧
    y ∉ deleteWrites (delete_node st b) (NEXT_BLKP st b) ∧
    y ∉ deleteWrites (delete_node st b) (PREV_BLKP st b) ∧
    y ∉ deleteWrites (delete_node (delete_node st b) (PREV_BLKP st b)) (NEXT_BLKP st b)

instance (st : State) (b : Nat) : Decidable (coalesceFrameOK st b) := by
  unfold coalesceFrameOK
  exact inferInstance

/-- Non-aliasing of `place`'s upper-split re-insertion stores with the
block header it re-reads to compute the returned pointer. -/
def placeFrameOK (fuel : Nat) (st : State) (b a : Nat) : Prop :=
  let r := GET_SIZE st (HDRP b) - a
  let st5 := PUT_NOTAG (PUT_NOTAG (PUT (PUT (delete_node st b) (HDRP b) (PACK r 0))
      (b + r - DSIZE) (PACK r 0)) (HDRP (b + r)) (PACK a 1)) (b + r + a - DSIZE) (PACK a 1)
  HDRP b ∉ insertWrites fuel st5 b r

instance (fuel : Nat) (st : State) (b a : Nat) : Decidable (placeFrameOK fuel st b a) := by
  unfold placeFrameOK
  exact inferInstance

/-- The heap addresses written by `coalesce fuel st ptr` (mirrors its
case structure; every address is the one the code's own re-read
computes at that program point). -/
def coalesceWrites (fuel : Nat) (st : State) (ptr : Nat) : List Nat :=
  let prev_alloc0 := GET_ALLOC st (HDRP (PREV_BLKP st ptr))
  let next_alloc := GET_ALLOC st (HDRP (NEXT_BLKP st ptr))
  let size := GET_SIZE st (HDRP ptr)
  let prev_alloc := if GET_TAG st (HDRP (PREV_BLKP st ptr)) ≠ 0 then 1 else prev_alloc0
  if prev_alloc ≠ 0 ∧ next_alloc ≠ 0 then []
  else if prev_alloc ≠ 0 ∧ next_alloc = 0 then
    let st1 := delete_node st ptr
    let st2 := delete_node st1 (NEXT_BLKP st1 ptr)
    let size2 := size + GET_SIZE st2 (HDRP (NEXT_BLKP st2 ptr))
    let st3 := PUT st2 (HDRP ptr) (PACK size2 0)
    let st4 := PUT st3 (FTRP st3 ptr) (PACK size2 0)
    deleteWrites st ptr ++ deleteWrites st1 (NEXT_BLKP st1 ptr) ++
      [HDRP ptr, FTRP st3 ptr] ++ insertWrites fuel st4 ptr size2
  else if prev_alloc = 0 ∧ next_alloc ≠ 0 then
    let st1 := delete_node st ptr
    let st2 := delete_node st1 (PREV_BLKP st1 ptr)
    let size2 := size + GET_SIZE st2 (HDRP (PREV_BLKP st2 ptr))
    let st3 := PUT st2 (FTRP st2 ptr) (PACK size2 0)
    let st4 := PUT st3 (HDRP (PREV_BLKP st3 ptr)) (PACK size2 0)
    let ptr2 := PREV_BLKP st4 ptr
    deleteWrites st ptr ++ deleteWrites st1 (PREV_BLKP st1 ptr) ++
      [FTRP st2 ptr, HDRP (PREV_BLKP st3 ptr)] ++ insertWrites fuel st4 ptr2 size2
  else
    let st1 := delete_node st ptr
    let st2 := delete_node st1 (PREV_BLKP st1 ptr)
    let st3 := delete_node st2 (NEXT_BLKP st2 ptr)
    let size2 := size + GET_SIZE st3 (HDRP (PREV_BLKP st3 ptr)) +
      GET_SIZE st3 (HDRP (NEXT_BLKP st3 ptr))
    let st4 := PUT st3 (HDRP (PREV_BLKP st3 ptr)) (PACK size2 0)
    let st5 := PUT st4 (FTRP st4 (NEXT_BLKP st4 ptr)) (PACK size2 0)
    let ptr2 := PREV_BLKP st5 ptr
    deleteWrites st ptr ++ deleteWrites st1 (PREV_BLKP st1 ptr) ++
      deleteWrites st2 (NEXT_BLKP st2 ptr) ++
      [HDRP (PREV_BLKP st3 ptr), FTRP st4 (NEXT_BLKP st4 ptr)] ++
      insertWrites fuel st5 ptr2 size2

/-- The heap addresses written by `place fuel st ptr asize`. -/
def placeWrites (fuel : Nat) (st : State) (ptr asize : Nat) : List Nat :=
  let ptr_size := GET_SIZE st (HDRP ptr)
  let remainder := sub32 ptr_size asize
  let st1 := delete_node st ptr
  if remainder ≤ DSIZE * 2 then
    let st2 := PUT st1 (HDRP ptr) (PACK ptr_size 1)
    deleteWrites st ptr ++ [HDRP ptr, FTRP st2 ptr]
  else if 100 ≤ asize then
    let st2 := PUT st1 (HDRP ptr) (PACK remainder 0)
    let st3 := PUT st2 (FTRP st2 ptr) (PACK remainder 0)
    let st4 := PUT_NOTAG st3 (HDRP (NEXT_BLKP st3 ptr)) (PACK asize 1)
    let st5 := PUT_NOTAG st4 (FTRP st4 (NEXT_BLKP st4 ptr)) (PACK asize 1)
    deleteWrites st ptr ++ [HDRP ptr, FTRP st2 ptr, HDRP (NEXT_BLKP st3 ptr),
      FTRP st4 (NEXT_BLKP st4 ptr)] ++ insertWrites fuel st5 ptr remainder
  else
    let st2 := PUT st1 (HDRP ptr) (PACK asize 1)
    let st3 := PUT st2 (FTRP st2 ptr) (PACK asize 1)
    let st4 := PUT_NOTAG st3 (HDRP (NEXT_BLKP st3 ptr)) (PACK remainder 0)
    let st5 := PUT_NOTAG st4 (FTRP st4 (NEXT_BLKP st4 ptr)) (PACK remainder 0)
    deleteWrites st ptr ++ [HDRP ptr, FTRP st2 ptr, HDRP (NEXT_BLKP st3 ptr),
      FTRP st4 (NEXT_BLKP st4 ptr)] ++
      insertWrites fuel st5 (NEXT_BLKP st5 ptr) remainder

/-- The heap addresses written by `extend_heap fuel st size` (empty when
`mem_sbrk` refuses the request). -/
def extendWrites (fuel : Nat) (st : State) (size : Nat) : List Nat :=
  let asize := ALIGN size
  match mem_sbrk st asize with
  | none => []
  | some (ptr, st0) =>
    let st1 := PUT_NOTAG st0 (HDRP ptr) (PACK asize 0)
    let st2 := PUT_NOTAG st1 (FTRP st1 ptr) (PACK asize 0)
    let st3 := PUT_NOTAG st2 (HDRP (NEXT_BLKP st2 ptr)) (PACK 0 1)
    let st4 := insert_node fuel st3 ptr asize
    [HDRP ptr, FTRP st1 ptr, HDRP (NEXT_BLKP st2 ptr)] ++
      insertWrites fuel st3 ptr asize ++ coalesceWrites fuel st4 ptr

/-- The heap addresses written by `mm_malloc fuel st size`. -/
def mallocWrites (fuel : Nat) (st : State) (size : Nat) : List Nat :=
  if size = 0 then []
  else
    let asize := adjustSize size
    let p0 := searchLists st asize fuel 0 asize
    if p0 = 0 then
      match extend_heap fuel st (max asize CHUNKSIZE) with
      | none => []
      | some (ptr, st1) =>
        extendWrites fuel st (max asize CHUNKSIZE) ++ placeWrites fuel st1 ptr asize
    else placeWrites fuel st p0 asize

/-- The heap addresses written by `mm_free fuel st ptr`. -/
def freeWrites (fuel : Nat) (st : State) (ptr : Nat) : List Nat :=
  let size := GET_SIZE st (HDRP ptr)
  let st1 := PUT st (HDRP ptr) (PACK size 0)
  let st2 := PUT st1 (FTRP st1 ptr) (PACK size 0)
  let st3 := insert_node fuel st2 ptr size
  [HDRP ptr, FTRP st1 ptr] ++ insertWrites fuel st2 ptr size ++
    coalesceWrites fuel st3 ptr

/-- Modelled from the specification's §4.5 description of `coalesce`:
the physical neighbours `P` and `N`, the three sizes and all tag
positions are computed once, up front, from the pre-state; the RA veto
applies to `P` only; the four cases unlink the participating blocks,
sum the sizes and rewrite the outermost header and footer (`N`'s
footer sits at `N + size(N) - DSIZE`); the resulting block is then
inserted into the list for its size. -/
def coalesce_spec (fuel : Nat) (st : State) (b : Nat) : Nat × State :=
  let pb := PREV_BLKP st b
  let nb := NEXT_BLKP st b
  let sb := GET_SIZE st (HDRP b)
  let sp := GET_SIZE st (HDRP pb)
  let sn := GET_SIZE st (HDRP nb)
  let pAlloc := GET_TAG st (HDRP pb) ≠ 0 ∨ GET_ALLOC st (HDRP pb) ≠ 0
  let nAlloc := GET_ALLOC st (HDRP nb) ≠ 0
  if pAlloc ∧ nAlloc then (b, st)
  else if pAlloc ∧ ¬ nAlloc then
    let st1 := delete_node st b
    let st2 := delete_node st1 nb
    let st3 := PUT st2 (HDRP b) (PACK (sb + sn) 0)
    let st4 := PUT st3 (nb + sn - DSIZE) (PACK (sb + sn) 0)
    (b, insert_node fuel st4 b (sb + sn))
  else if ¬ pAlloc ∧ nAlloc then
    let st1 := delete_node st b
    let st2 := delete_node st1 pb
    let st3 := PUT st2 (b + sb - DSIZE) (PACK (sp + sb) 0)
    let st4 := PUT st3 (HDRP pb) (PACK (sp + sb) 0)
    (pb, insert_node fuel st4 pb (sp + sb))
  else
    let st1 := delete_node st b
    let st2 := delete_node st1 pb
    let st3 := delete_node st2 nb
    let st4 := PUT st3 (HDRP pb) (PACK (sp + sb + sn) 0)
    let st5 := PUT st4 (nb + sn - DSIZE) (PACK (sp + sb + sn) 0)
    (pb, insert_node fuel st5 pb (sp + sb + sn))

/-- Modelled from the specification's §4.6 description of `place`: the
remainder is `r = size(B) - a`; no split when `r ≤ 2·8`; split with
the allocation at the upper end when `a ≥ 100` (lower free fragment of
size `r` re-inserted, pointer `B + r` to the upper fragment returned,
the upper fragment's tags written with RA cleared); otherwise split
with the allocation at the lower end (upper fragment of size `r`
becomes a free block, written with RA cleared, and inserted; `B` is
returned).  All positions are computed up front from the pre-state. -/
def place_spec (fuel : Nat) (st : State) (b a : Nat) : Nat × State :=
  let sb := GET_SIZE st (HDRP b)
  let r := sb - a
  let st1 := delete_node st b
  if r ≤ 2 * 8 then
    let st2 := PUT st1 (HDRP b) (PACK sb 1)
    let st3 := PUT st2 (b + sb - DSIZE) (PACK sb 1)
    (b, st3)
  else if 100 ≤ a then
    let st2 := PUT st1 (HDRP b) (PACK r 0)
    let st3 := PUT st2 (b + r - DSIZE) (PACK r 0)
    let st4 := PUT_NOTAG st3 (HDRP (b + r)) (PACK a 1)
    let st5 := PUT_NOTAG st4 (b + r + a - DSIZE) (PACK a 1)
    (b + r, insert_node fuel st5 b r)
  else
    let st2 := PUT st1 (HDRP b) (PACK a 1)
    let st3 := PUT st2 (b + a - DSIZE) (PACK a 1)
    let st4 := PUT_NOTAG st3 (HDRP (b + a)) (PACK r 0)
    let st5 := PUT_NOTAG st4 (b + a + r - DSIZE) (PACK r 0)
    (b, insert_node fuel st5 (b + a) r)

/-! ### Concrete states used by witnesses and counterexamples

Each is a checkpoint of a trace of public operations; the `_step`
theorems below prove by `decide` that each checkpoint is the result of
one public operation on the previous one. -/

/-- A tiny concrete state: its word at address 12 is `PACK 160 1`,
i.e. an allocated 160-byte block at payload 16. -/
def bigSlackState : State := ⟨[(12, 161)], 200, 200, []⟩

/-- `mm_init` on a pristine heap of capacity 100000: prologue at 4, a
64-byte free block at payload 16 (list 6), epilogue header at 76. -/
def sH : State :=
  ⟨[(20, 0), (16, 0), (76, 1), (72, 64), (12, 64), (12, 1), (8, 9), (4, 9), (0, 0)],
    80, 100000, [(6, 16)]⟩

/-- `sH` after `malloc(56)` (returns 16): the 64-byte block fully
allocated. -/
def q1 : State :=
  ⟨[(72, 65), (12, 65), (20, 0), (16, 0), (76, 1), (72, 64), (12, 64), (12, 1), (8, 9),
    (4, 9), (0, 0)], 80, 100000, [(6, 0), (6, 16)]⟩

/-- `q1` after `malloc(24)` (returns 80): heap extended by 4096, a
32-byte block allocated at payload 80, free 4064-byte block at 112. -/
def q2 : State :=
  ⟨[(116, 0), (112, 0), (4168, 4064), (108, 4064), (104, 33), (76, 33), (84, 0), (80, 0),
    (4172, 1), (4168, 4096), (76, 4096), (72, 65), (12, 65), (20, 0), (16, 0), (76, 1),
    (72, 64), (12, 64), (12, 1), (8, 9), (4, 9), (0, 0)], 4176, 100000,
    [(11, 112), (12, 0), (12, 80), (6, 0), (6, 16)]⟩

/-- `q2` after `malloc(24)` (returns 112). -/
def q3 : State :=
  ⟨[(148, 0), (144, 0), (4168, 4032), (140, 4032), (136, 33), (108, 33), (116, 0), (112, 0), (4168, 4064), (108, 4064), (104, 33), (76, 33), (84, 0), (80, 0), (4172, 1), (4168, 4096), (76, 4096), (72, 65), (12, 65), (20, 0), (16, 0), (76, 1), (72, 64), (12, 64), (12, 1), (8, 9), (4, 9), (0, 0)], 4176, 100000, [(11, 144), (11, 0), (11, 112), (12, 0), (12, 80), (6, 0), (6, 16)]⟩

/-- `q3` after `malloc(32)` (returns 144): a 40-byte block. -/
def q4 : State :=
  ⟨[(188, 0), (184, 0), (4168, 3992), (180, 3992), (176, 41), (140, 41), (148, 0), (144, 0), (4168, 4032), (140, 4032), (136, 33), (108, 33), (116, 0), (112, 0), (4168, 4064), (108, 4064), (104, 33), (76, 33), (84, 0), (80, 0), (4172, 1), (4168, 4096), (76, 4096), (72, 65), (12, 65), (20, 0), (16, 0), (76, 1), (72, 64), (12, 64), (12, 1), (8, 9), (4, 9), (0, 0)], 4176, 100000, [(11, 184), (11, 0), (11, 144), (11, 0), (11, 112), (12, 0), (12, 80), (6, 0), (6, 16)]⟩

/-- `q4` after `malloc(40)` (returns 184): a 48-byte block. -/
def q5 : State :=
  ⟨[(236, 0), (232, 0), (4168, 3944), (228, 3944), (224, 49), (180, 49), (188, 0), (184, 0), (4168, 3992), (180, 3992), (176, 41), (140, 41), (148, 0), (144, 0), (4168, 4032), (140, 4032), (136, 33), (108, 33), (116, 0), (112, 0), (4168, 4064), (108, 4064), (104, 33), (76, 33), (84, 0), (80, 0), (4172, 1), (4168, 4096), (76, 4096), (72, 65), (12, 65), (20, 0), (16, 0), (76, 1), (72, 64), (12, 64), (12, 1), (8, 9), (4, 9), (0, 0)], 4176, 100000, [(11, 232), (11, 0), (11, 184), (11, 0), (11, 144), (11, 0), (11, 112), (12, 0), (12, 80), (6, 0), (6, 16)]⟩

/-- `q5` after `free(144)`: the 40-byte block at 144 becomes the head
of list 5 (its neighbours at 112 and 184 are allocated). -/
def q6 : State :=
  ⟨[(148, 0), (144, 0), (176, 40), (140, 40), (236, 0), (232, 0), (4168, 3944), (228, 3944), (224, 49), (180, 49), (188, 0), (184, 0), (4168, 3992), (180, 3992), (176, 41), (140, 41), (148, 0), (144, 0), (4168, 4032), (140, 4032), (136, 33), (108, 33), (116, 0), (112, 0), (4168, 4064), (108, 4064), (104, 33), (76, 33), (84, 0), (80, 0), (4172, 1), (4168, 4096), (76, 4096), (72, 65), (12, 65), (20, 0), (16, 0), (76, 1), (72, 64), (12, 64), (12, 1), (8, 9), (4, 9), (0, 0)], 4176, 100000, [(5, 144), (11, 232), (11, 0), (11, 184), (11, 0), (11, 144), (11, 0), (11, 112), (12, 0), (12, 80), (6, 0), (6, 16)]⟩

/-- `q6` after `free(80)`: the 32-byte block at 80 is pushed at the
head of list 5 in front of the block at 144 — the PRED-traversal of
list 5 is now `80, 144`, an address-ascending order from the head. -/
def q7 : State :=
  ⟨[(84, 0), (148, 80), (80, 144), (104, 32), (76, 32), (148, 0), (144, 0), (176, 40), (140, 40), (236, 0), (232, 0), (4168, 3944), (228, 3944), (224, 49), (180, 49), (188, 0), (184, 0), (4168, 3992), (180, 3992), (176, 41), (140, 41), (148, 0), (144, 0), (4168, 4032), (140, 4032), (136, 33), (108, 33), (116, 0), (112, 0), (4168, 4064), (108, 4064), (104, 33), (76, 33), (84, 0), (80, 0), (4172, 1), (4168, 4096), (76, 4096), (72, 65), (12, 65), (20, 0), (16, 0), (76, 1), (72, 64), (12, 64), (12, 1), (8, 9), (4, 9), (0, 0)], 4176, 100000, [(5, 80), (5, 144), (11, 232), (11, 0), (11, 184), (11, 0), (11, 144), (11, 0), (11, 112), (12, 0), (12, 80), (6, 0), (6, 16)]⟩

/-- `sH` after `malloc(150)` (returns 4016): the heap grows by 4096,
the 4160-byte free block is split at the upper end (`asize = 160 ≥
100`), leaving the allocated 160-byte block at payload 4016 directly
below the epilogue header at 4172. -/
def r1 : State :=
  ⟨[(20, 0), (16, 0), (4168, 161), (4012, 161), (4008, 4000), (12, 4000), (20, 0), (16, 0),
    (12, 4160), (4168, 4160), (84, 0), (80, 0), (4172, 1), (4168, 4096), (76, 4096), (20, 0),
    (16, 0), (76, 1), (72, 64), (12, 64), (12, 1), (8, 9), (4, 9), (0, 0)], 4176, 100000,
    [(11, 16), (12, 0), (12, 16), (6, 0), (12, 0), (12, 80), (6, 16)]⟩

/-- `mm_init` on a heap of capacity exactly 80: as `sH` but any
further extension must fail. -/
def s80 : State :=
  ⟨[(20, 0), (16, 0), (76, 1), (72, 64), (12, 64), (12, 1), (8, 9), (4, 9), (0, 0)],
    80, 80, [(6, 16)]⟩

/-- `s80` after `malloc(56)`: the whole free block allocated, followed
only by the epilogue; heap full. -/
def sB : State :=
  ⟨[(72, 65), (12, 65), (20, 0), (16, 0), (76, 1), (72, 64), (12, 64), (12, 1), (8, 9),
    (4, 9), (0, 0)], 80, 80, [(6, 0), (6, 16)]⟩

/-- `s80` after `malloc(24); malloc(24)`: two allocated 32-byte blocks
at payloads 16 and 48; no free blocks; heap full. -/
def sC : State :=
  ⟨[(72, 33), (44, 33), (52, 0), (48, 0), (72, 32), (44, 32), (40, 33), (12, 33), (20, 0),
    (16, 0), (76, 1), (72, 64), (12, 64), (12, 1), (8, 9), (4, 9), (0, 0)], 80, 80,
    [(5, 0), (5, 48), (6, 0), (6, 16)]⟩

/-- A heap whose 48-byte allocated block at payload 16 is followed by a
400-byte free block and the epilogue; `mm_realloc(16, 100)` grows in
place into the free neighbour without extending the heap. -/
def sG : State :=
  ⟨[(12, 49), (56, 49), (60, 400), (64, 0), (68, 0), (456, 400), (460, 1)],
    464, 464, []⟩

/-- A heap whose 16-byte allocated block at payload 16 is followed by a
16-byte free block and the epilogue, with plenty of sbrk capacity;
`mm_realloc(16, 16)` grows in place after extending the heap. -/
def sX : State :=
  ⟨[(12, 17), (24, 17), (28, 16), (32, 0), (36, 0), (40, 16), (44, 1)],
    48, 100000, []⟩

/-- The state `extend_heap 100 sX 4096` produces (the new 4096-byte
block is coalesced with the free 16-byte block in front of it). -/
def stEX : State :=
  ⟨[(36, 0), (32, 0), (28, 4112), (4136, 4112), (52, 0), (48, 0), (4140, 1),
    (4136, 4096), (44, 4096), (12, 17), (24, 17), (28, 16), (32, 0), (36, 0),
    (40, 16), (44, 1)], 4144, 100000, [(12, 32), (4, 0), (12, 0), (12, 48)]⟩

/-- The state `(mm_malloc 100 q3 144).2` produces: the relocation
allocation of `mm_realloc(80, 16)` on `q3` places a 152-byte block at
payload 4024 in the upper end of the big free block. -/
def stmD : State :=
  ⟨[(148, 0), (144, 0), (4168, 153), (4020, 153), (4016, 3880), (140, 3880),
    (148, 0), (144, 0), (4168, 4032), (140, 4032), (136, 33), (108, 33),
    (116, 0), (112, 0), (4168, 4064), (108, 4064), (104, 33), (76, 33),
    (84, 0), (80, 0), (4172, 1), (4168, 4096), (76, 4096), (72, 65), (12, 65),
    (20, 0), (16, 0), (76, 1), (72, 64), (12, 64), (12, 1), (8, 9), (4, 9),
    (0, 0)], 4176, 100000,
    [(11, 144), (11, 0), (11, 144), (11, 0), (11, 112), (12, 0), (12, 80),
      (6, 0), (6, 16)]⟩

/-! ### Trace-checkpoint step theorems -/

theorem sH_init : mm_init 100 (initState 100000) = some sH := by decide

theorem q1_step : mm_malloc 100 sH 56 = (16, q1) := by decide

theorem q2_step : mm_malloc 100 q1 24 = (80, q2) := by decide

theorem q3_step : mm_malloc 100 q2 24 = (112, q3) := by decide

theorem q4_step : mm_malloc 100 q3 32 = (144, q4) := by decide

theorem q5_step : mm_malloc 100 q4 40 = (184, q5) := by decide

theorem q6_step : mm_free 100 q5 144 = q6 := by decide

theorem q7_step : mm_free 100 q6 80 = q7 := by decide

theorem r1_step : mm_malloc 100 sH 150 = (4016, r1) := by decide

theorem s80_init : mm_init 100 (initState 80) = some s80 := by decide

theorem sB_step : mm_malloc 100 s80 56 = (16, sB) := by decide

theorem sC_step : mm_malloc 100 (mm_malloc 100 s80 24).2 24 = (48, sC) := by decide

/-! ### Arithmetic characterisations of the bit-level codec -/

theorem M32_eq : M32 = 2 ^ 32 := by norm_num [M32]

theorem land_sub8 (w : Nat) : w &&& (M32 - 8) = w % M32 / 8 * 8 := by
  have hmask : (M32 - 8 : Nat) = (2 ^ 29 - 1) <<< 3 := by
    norm_num [Nat.shiftLeft_eq, M32]
  have hr : w % M32 / 8 * 8 = ((w % 2 ^ 32) >>> 3) <<< 3 := by
    simp [Nat.shiftRight_eq_div_pow, Nat.shiftLeft_eq, M32_eq]
  apply Nat.eq_of_testBit_eq
  intro i
  rw [hmask, hr, Nat.testBit_and, Nat.testBit_shiftLeft, Nat.testBit_shiftLeft,
    Nat.testBit_shiftRight, Nat.testBit_mod_two_pow, Nat.testBit_two_pow_sub_one]
  rcases Nat.lt_or_ge i 3 with h3 | h3
  · simp [Nat.not_le.mpr h3]
  · have hi : 3 + (i - 3) = i := by omega
    rw [hi]
    rcases Nat.lt_or_ge i 32 with h32 | h32
    · simp [h3, h32, show i - 3 < 29 by omega]
    · simp [h3, show ¬ i - 3 < 29 by omega, show ¬ i < 32 by omega]

theorem GET_SIZE_eq (st : State) (p : Nat) :
    GET_SIZE st p = GET st p % M32 / 8 * 8 := land_sub8 _

theorem GET_SIZE_mod8 (st : State) (p : Nat) : GET_SIZE st p % 8 = 0 := by
  rw [GET_SIZE_eq]; simp [Nat.mul_mod_left]

theorem GET_SIZE_lt (st : State) (p : Nat) : GET_SIZE st p < M32 := by
  rw [GET_SIZE_eq]
  calc GET st p % M32 / 8 * 8 ≤ GET st p % M32 := Nat.div_mul_le_self _ _
    _ < M32 := Nat.mod_lt _ (by norm_num [M32])

theorem GET_ALLOC_eq (st : State) (p : Nat) : GET_ALLOC st p = GET st p % 2 := by
  simp [GET_ALLOC, Nat.and_one_is_mod]

theorem land_two (w : Nat) : w &&& 2 = w / 2 % 2 * 2 := by
  have h := Nat.and_two_pow w 1
  norm_num at h
  rw [h, Nat.testBit_to_div_mod]
  rcases Nat.mod_two_eq_zero_or_one (w / 2) with h2 | h2 <;> simp [h2]

theorem GET_TAG_eq (st : State) (p : Nat) : GET_TAG st p = GET st p / 2 % 2 * 2 := by
  simp [GET_TAG, land_two]

theorem GET_TAG_eq_zero {st : State} {p : Nat} (h : GET st p % 4 < 2) :
    GET_TAG st p = 0 := by
  rw [GET_TAG_eq]
  omega

theorem PACK_eq {s : Nat} (a : Nat) (h : s % 8 = 0) : PACK s a = s + a % 2 := by
  have h8 : s = 2 ^ 3 * (s / 8) := by omega
  have hlt : a % 2 < 2 ^ 3 := by omega
  rw [PACK, Nat.and_one_is_mod]
  conv_lhs => rw [h8]
  rw [← Nat.mul_add_lt_is_or hlt, ← h8]

theorem ALIGN_eq {s : Nat} (h : s + 7 < M32) : ALIGN s = (s + 7) / 8 * 8 := by
  rw [ALIGN, land_sub8, Nat.mod_eq_of_lt h, Nat.mod_eq_of_lt h]

theorem ALIGN_mod8 (s : Nat) : ALIGN s % 8 = 0 := by
  rw [ALIGN, land_sub8]; simp [Nat.mul_mod_left]

theorem ALIGN_lt (s : Nat) : ALIGN s < M32 := by
  rw [ALIGN, land_sub8]
  calc (s + 7) % M32 % M32 / 8 * 8 ≤ (s + 7) % M32 % M32 := Nat.div_mul_le_self _ _
    _ < M32 := Nat.mod_lt _ (by norm_num [M32])

theorem ALIGN_ge {s : Nat} (h : s + 7 < M32) : s ≤ ALIGN s := by
  rw [ALIGN_eq h]
  omega

theorem adjustSize_ge {s : Nat} (h : s + DSIZE + 7 < M32) : s ≤ adjustSize s := by
  unfold adjustSize
  by_cases hs : s ≤ DSIZE
  · rw [if_pos hs]
    have hD : DSIZE = 8 := rfl
    omega
  · rw [if_neg hs]
    have := ALIGN_ge (s := s + DSIZE) h
    omega

theorem sub32_of_le {a b : Nat} (hb : b ≤ a) (ha : a < M32) : sub32 a b = a - b := by
  have h32 : M32 = 4294967296 := rfl
  unfold sub32
  rw [h32] at ha ⊢
  omega

theorem toInt32_of_lt {v : Nat} (h : v < 2147483648) : toInt32 v = (v : Int) := by
  have h32 : M32 = 4294967296 := rfl
  unfold toInt32
  rw [h32, if_pos (by omega)]
  omega

/-! ### Small facts about the state operations -/

theorem GET_SET_PTR (st : State) (p v x : Nat) :
    GET (SET_PTR st p v) x = if x = p then v % M32 else GET st x := rfl

theorem listHead_setListHead (st : State) (i v j : Nat) :
    listHead (setListHead st i v) j = if j = i then v else listHead st j := rfl

theorem GET_PUT (st : State) (p v x : Nat) :
    GET (PUT st p v) x = if x = p then (v ||| GET_TAG st p) % M32 else GET st x := rfl

theorem GET_PUT_NOTAG (st : State) (p v x : Nat) :
    GET (PUT_NOTAG st p v) x = if x = p then v % M32 else GET st x := rfl

theorem GET_setListHead (st : State) (i v x : Nat) :
    GET (setListHead st i v) x = GET st x := rfl

theorem GET_PUT_ne {st : State} {p v x : Nat} (h : x ≠ p) :
    GET (PUT st p v) x = GET st x := by
  rw [GET_PUT, if_neg h]

theorem GET_PUT_NOTAG_ne {st : State} {p v x : Nat} (h : x ≠ p) :
    GET (PUT_NOTAG st p v) x = GET st x := by
  rw [GET_PUT_NOTAG, if_neg h]

theorem GET_SIZE_PUT_ne {st : State} {p v x : Nat} (h : x ≠ p) :
    GET_SIZE (PUT st p v) x = GET_SIZE st x := by
  unfold GET_SIZE
  rw [GET_PUT_ne h]

theorem GET_SIZE_PUT_NOTAG_ne {st : State} {p v x : Nat} (h : x ≠ p) :
    GET_SIZE (PUT_NOTAG st p v) x = GET_SIZE st x := by
  unfold GET_SIZE
  rw [GET_PUT_NOTAG_ne h]

theorem GET_delete_node {st : State} {ptr y : Nat} (hy : y ∉ deleteWrites st ptr) :
    GET (delete_node st ptr) y = GET st y := by
  by_cases h1 : PRED st ptr ≠ 0
  · by_cases h2 : SUCC st ptr ≠ 0
    · simp only [deleteWrites, if_pos h1, if_pos h2, List.mem_cons,
        List.not_mem_nil, or_false, not_or] at hy
      simp only [delete_node, if_pos h1, if_pos h2]
      rw [GET_SET_PTR, if_neg hy.2, GET_SET_PTR, if_neg hy.1]
    · simp only [deleteWrites, if_pos h1, if_neg h2, List.mem_cons,
        List.not_mem_nil, or_false, not_or] at hy
      simp only [delete_node, if_pos h1, if_neg h2]
      rw [GET_setListHead, GET_SET_PTR, if_neg hy]
  · by_cases h2 : SUCC st ptr ≠ 0
    · simp only [deleteWrites, if_neg h1, if_pos h2, List.mem_cons,
        List.not_mem_nil, or_false, not_or] at hy
      simp only [delete_node, if_neg h1, if_pos h2]
      rw [GET_SET_PTR, if_neg hy]
    · simp only [delete_node, if_neg h1, if_neg h2]
      rw [GET_setListHead]

theorem GET_SIZE_delete_node {st : State} {ptr y : Nat}
    (hy : y ∉ deleteWrites st ptr) :
    GET_SIZE (delete_node st ptr) y = GET_SIZE st y := by
  unfold GET_SIZE
  rw [GET_delete_node hy]

theorem GET_insert_node {fuel : Nat} {st : State} {ptr size0 y : Nat}
    (hy : y ∉ insertWrites fuel st ptr size0) :
    GET (insert_node fuel st ptr size0) y = GET st y := by
  by_cases h1 :
    (insertSearch st (selectListSize 0 size0).2 fuel
      (listHead st (selectListSize 0 size0).1) 0).1 ≠ 0
  · by_cases h2 :
      (insertSearch st (selectListSize 0 size0).2 fuel
        (listHead st (selectListSize 0 size0).1) 0).2 ≠ 0
    · simp only [insertWrites, if_pos h1, if_pos h2, List.mem_cons,
        List.not_mem_nil, or_false, not_or] at hy
      simp only [insert_node, if_pos h1, if_pos h2]
      rw [GET_SET_PTR, if_neg hy.2.2.2, GET_SET_PTR, if_neg hy.2.2.1,
        GET_SET_PTR, if_neg hy.2.1, GET_SET_PTR, if_neg hy.1]
    · simp only [insertWrites, if_pos h1, if_neg h2, List.mem_cons,
        List.not_mem_nil, or_false, not_or] at hy
      simp only [insert_node, if_pos h1, if_neg h2]
      rw [GET_setListHead, GET_SET_PTR, if_neg hy.2.2, GET_SET_PTR,
        if_neg hy.2.1, GET_SET_PTR, if_neg hy.1]
  · by_cases h2 :
      (insertSearch st (selectListSize 0 size0).2 fuel
        (listHead st (selectListSize 0 size0).1) 0).2 ≠ 0
    · simp only [insertWrites, if_neg h1, if_pos h2, List.mem_cons,
        List.not_mem_nil, or_false, not_or] at hy
      simp only [insert_node, if_neg h1, if_pos h2]
      rw [GET_SET_PTR, if_neg hy.2.2, GET_SET_PTR, if_neg hy.2.1,
        GET_SET_PTR, if_neg hy.1]
    · simp only [insertWrites, if_neg h1, if_neg h2, List.mem_cons,
        List.not_mem_nil, or_false, not_or] at hy
      simp only [insert_node, if_neg h1, if_neg h2]
      rw [GET_setListHead, GET_SET_PTR, if_neg hy.2, GET_SET_PTR, if_neg hy.1]

theorem GET_SIZE_insert_node {fuel : Nat} {st : State} {ptr size0 y : Nat}
    (hy : y ∉ insertWrites fuel st ptr size0) :
    GET_SIZE (insert_node fuel st ptr size0) y = GET_SIZE st y := by
  unfold GET_SIZE
  rw [GET_insert_node hy]

theorem GET_coalesce {fuel : Nat} {st : State} {ptr y : Nat}
    (hy : y ∉ coalesceWrites fuel st ptr) :
    GET (coalesce fuel st ptr).2 y = GET st y := by
  by_cases hc1 : (if GET_TAG st (HDRP (PREV_BLKP st ptr)) ≠ 0 then 1
      else GET_ALLOC st (HDRP (PREV_BLKP st ptr))) ≠ 0 ∧
      GET_ALLOC st (HDRP (NEXT_BLKP st ptr)) ≠ 0
  · simp only [coalesce, if_pos hc1]
  · by_cases hc2 : (if GET_TAG st (HDRP (PREV_BLKP st ptr)) ≠ 0 then 1
        else GET_ALLOC st (HDRP (PREV_BLKP st ptr))) ≠ 0 ∧
        GET_ALLOC st (HDRP (NEXT_BLKP st ptr)) = 0
    · simp only [coalesceWrites, if_neg hc1, if_pos hc2, List.mem_append,
        List.mem_cons, List.not_mem_nil, or_false, not_or] at hy
      obtain ⟨⟨⟨hA, hB⟩, hH, hF⟩, hI⟩ := hy
      simp only [coalesce, if_neg hc1, if_pos hc2]
      rw [GET_insert_node hI, GET_PUT_ne hF, GET_PUT_ne hH,
        GET_delete_node hB, GET_delete_node hA]
    · by_cases hc3 : (if GET_TAG st (HDRP (PREV_BLKP st ptr)) ≠ 0 then 1
          else GET_ALLOC st (HDRP (PREV_BLKP st ptr))) = 0 ∧
          GET_ALLOC st (HDRP (NEXT_BLKP st ptr)) ≠ 0
      · simp only [coalesceWrites, if_neg hc1, if_neg hc2, if_pos hc3,
          List.mem_append, List.mem_cons, List.not_mem_nil, or_false,
          not_or] at hy
        obtain ⟨⟨⟨hA, hB⟩, hF2, hH⟩, hI⟩ := hy
        simp only [coalesce, if_neg hc1, if_neg hc2, if_pos hc3]
        rw [GET_insert_node hI, GET_PUT_ne hH, GET_PUT_ne hF2,
          GET_delete_node hB, GET_delete_node hA]
      · simp only [coalesceWrites, if_neg hc1, if_neg hc2, if_neg hc3,
          List.mem_append, List.mem_cons, List.not_mem_nil, or_false,
          not_or] at hy
        obtain ⟨⟨⟨⟨hA, hB⟩, hC⟩, hH, hF⟩, hI⟩ := hy
        simp only [coalesce, if_neg hc1, if_neg hc2, if_neg hc3]
        rw [GET_insert_node hI, GET_PUT_ne hF, GET_PUT_ne hH,
          GET_delete_node hC, GET_delete_node hB, GET_delete_node hA]

theorem GET_place {fuel : Nat} {st : State} {ptr asize y : Nat}
    (hy : y ∉ placeWrites fuel st ptr asize) :
    GET (place fuel st ptr asize).2 y = GET st y := by
  by_cases h1 : sub32 (GET_SIZE st (HDRP ptr)) asize ≤ DSIZE * 2
  · simp only [placeWrites, if_pos h1, List.mem_append, List.mem_cons,
      List.not_mem_nil, or_false, not_or] at hy
    obtain ⟨hA, hH, hF⟩ := hy
    simp only [place, if_pos h1]
    rw [GET_PUT_ne hF, GET_PUT_ne hH, GET_delete_node hA]
  · by_cases h2 : 100 ≤ asize
    · simp only [placeWrites, if_neg h1, if_pos h2, List.mem_append,
        List.mem_cons, List.not_mem_nil, or_false, not_or] at hy
      obtain ⟨⟨hA, hH, hF, hH2, hF2⟩, hI⟩ := hy
      simp only [place, if_neg h1, if_pos h2]
      rw [GET_insert_node hI, GET_PUT_NOTAG_ne hF2, GET_PUT_NOTAG_ne hH2,
        GET_PUT_ne hF, GET_PUT_ne hH, GET_delete_node hA]
    · simp only [placeWrites, if_neg h1, if_neg h2, List.mem_append,
        List.mem_cons, List.not_mem_nil, or_false, not_or] at hy
      obtain ⟨⟨hA, hH, hF, hH2, hF2⟩, hI⟩ := hy
      simp only [place, if_neg h1, if_neg h2]
      rw [GET_insert_node hI, GET_PUT_NOTAG_ne hF2, GET_PUT_NOTAG_ne hH2,
        GET_PUT_ne hF, GET_PUT_ne hH, GET_delete_node hA]

theorem GET_extend {fuel : Nat} {st : State} {size y : Nat} {r : Nat × State}
    (hE : extend_heap fuel st size = some r)
    (hy : y ∉ extendWrites fuel st size) :
    GET r.2 y = GET st y := by
  rcases hm : mem_sbrk st (ALIGN size) with _ | ⟨ptr, st0⟩
  · rw [extend_heap, hm] at hE
    exact Option.noConfusion hE
  · have hmem : GET st0 y = GET st y := by
      unfold mem_sbrk at hm
      by_cases hok : st.brk + ALIGN size ≤ st.limit
      · rw [if_pos hok] at hm
        cases hm
        rfl
      · rw [if_neg hok] at hm
        cases hm
    rw [extend_heap, hm] at hE
    simp only [extendWrites, hm, List.mem_append, List.mem_cons,
      List.not_mem_nil, or_false, not_or] at hy
    obtain ⟨⟨⟨hH, hF, hN⟩, hI⟩, hC⟩ := hy
    have hr := Option.some.inj hE
    rw [← hr]
    rw [GET_coalesce hC, GET_insert_node hI, GET_PUT_NOTAG_ne hN,
      GET_PUT_NOTAG_ne hF, GET_PUT_NOTAG_ne hH, hmem]

theorem GET_mm_malloc {fuel : Nat} {st : State} {size y : Nat}
    (hy : y ∉ mallocWrites fuel st size) :
    GET (mm_malloc fuel st size).2 y = GET st y := by
  by_cases hs : size = 0
  · simp only [mm_malloc, if_pos hs]
  · by_cases hp0 : searchLists st (adjustSize size) fuel 0 (adjustSize size) = 0
    · rcases hE : extend_heap fuel st (max (adjustSize size) CHUNKSIZE)
        with _ | ⟨q, st1⟩
      · simp only [mm_malloc, if_neg hs, if_pos hp0, hE]
      · simp only [mallocWrites, if_neg hs, if_pos hp0, hE, List.mem_append,
          not_or] at hy
        obtain ⟨hEW, hPW⟩ := hy
        simp only [mm_malloc, if_neg hs, if_pos hp0, hE]
        rw [GET_place hPW]
        exact GET_extend hE hEW
    · simp only [mallocWrites, if_neg hs, if_neg hp0] at hy
      simp only [mm_malloc, if_neg hs, if_neg hp0]
      exact GET_place hy

theorem GET_mm_free {fuel : Nat} {st : State} {ptr y : Nat}
    (hy : y ∉ freeWrites fuel st ptr) :
    GET (mm_free fuel st ptr) y = GET st y := by
  simp only [freeWrites, List.mem_append, List.mem_cons, List.not_mem_nil,
    or_false, not_or] at hy
  obtain ⟨⟨⟨hH, hF⟩, hI⟩, hC⟩ := hy
  simp only [mm_free]
  rw [GET_coalesce hC, GET_insert_node hI, GET_PUT_ne hF, GET_PUT_ne hH]

theorem getByte_eq (st : State) (a : Nat) :
    getByte st a = GET st (a - a % 4) / 2 ^ (8 * (a % 4)) % 256 := rfl

theorem getByte_lt (st : State) (a : Nat) : getByte st a < 256 :=
  Nat.mod_lt _ (by norm_num)

theorem getByte_congr {st st' : State} {a : Nat}
    (h : GET st' (a - a % 4) = GET st (a - a % 4)) :
    getByte st' a = getByte st a := by
  rw [getByte_eq, getByte_eq, h]

theorem GET_setByte (st : State) (a v x : Nat) :
    GET (setByte st a v) x =
      if x = a - a % 4 then
        GET st (a - a % 4) - GET st (a - a % 4) / 2 ^ (8 * (a % 4)) % 256 *
          2 ^ (8 * (a % 4)) + v % 256 * 2 ^ (8 * (a % 4))
      else GET st x := rfl

theorem getByte_setByte_self (st : State) (a v : Nat) :
    getByte (setByte st a v) a = v % 256 := by
  rw [getByte_eq, GET_setByte, if_pos rfl]
  have h4 : a % 4 = 0 ∨ a % 4 = 1 ∨ a % 4 = 2 ∨ a % 4 = 3 := by omega
  rcases h4 with h | h | h | h <;> rw [h] <;> norm_num <;> omega

theorem getByte_setByte_other {st : State} {a v b : Nat} (h : b ≠ a) :
    getByte (setByte st a v) b = getByte st b := by
  rw [getByte_eq, getByte_eq, GET_setByte]
  by_cases hw : b - b % 4 = a - a % 4
  · rw [if_pos hw, hw]
    have hb4 : b % 4 ≠ a % 4 := by omega
    have ha4 : a % 4 = 0 ∨ a % 4 = 1 ∨ a % 4 = 2 ∨ a % 4 = 3 := by omega
    have hb4' : b % 4 = 0 ∨ b % 4 = 1 ∨ b % 4 = 2 ∨ b % 4 = 3 := by omega
    rcases ha4 with ha | ha | ha | ha <;> rcases hb4' with hb | hb | hb | hb <;>
      rw [ha, hb] <;> norm_num <;> omega
  · rw [if_neg hw]

theorem memcpyGo_frame (dst src : Nat) :
    ∀ k st i x, (∀ u, i ≤ u → u < i + k → x ≠ dst + u) →
      getByte (memcpyGo dst src k st i) x = getByte st x := by
  intro k
  induction k with
  | zero => intro st i x _; rfl
  | succ k ih =>
    intro st i x hx
    rw [show memcpyGo dst src (k + 1) st i = memcpyGo dst src k
      (setByte st (dst + i) (getByte st (src + i))) (i + 1) from rfl]
    rw [ih _ (i + 1) x (fun u hu1 hu2 => hx u (by omega) (by omega))]
    exact getByte_setByte_other (hx i (le_refl i) (by omega))

theorem memcpyGo_get (dst src : Nat) :
    ∀ k st i j, i ≤ j → j < i + k →
      (∀ u v, i ≤ u → u < i + k → i ≤ v → v < i + k →
        (src + u) - (src + u) % 4 ≠ (dst + v) - (dst + v) % 4) →
      getByte (memcpyGo dst src k st i) (dst + j) = getByte st (src + j) := by
  intro k
  induction k with
  | zero => intro st i j h1 h2 _; exact absurd h2 (by omega)
  | succ k ih =>
    intro st i j h1 h2 hd
    rw [show memcpyGo dst src (k + 1) st i = memcpyGo dst src k
      (setByte st (dst + i) (getByte st (src + i))) (i + 1) from rfl]
    by_cases hji : j = i
    · rw [hji]
      rw [memcpyGo_frame dst src k _ (i + 1) _ (fun u hu1 hu2 => by omega)]
      rw [getByte_setByte_self]
      exact Nat.mod_eq_of_lt (getByte_lt st (src + i))
    · rw [ih _ (i + 1) j (by omega) (by omega) (fun u v hu1 hu2 hv1 hv2 =>
        hd u v (by omega) (by omega) (by omega) (by omega))]
      refine getByte_setByte_other ?_
      intro hEq
      have hne := hd j i h1 h2 (le_refl i) (by omega)
      rw [hEq] at hne
      exact hne rfl

theorem memcpy_get {st : State} {dst src n j : Nat} (hj : j < n)
    (hd : ∀ u v, u < n → v < n →
      (src + u) - (src + u) % 4 ≠ (dst + v) - (dst + v) % 4) :
    getByte (memcpy st dst src n) (dst + j) = getByte st (src + j) :=
  memcpyGo_get dst src n st 0 j (Nat.zero_le j) (by omega)
    (fun u v _ hu2 _ hv2 => hd u v (by omega) (by omega))

theorem or_low {s t : Nat} (h8 : s % 8 = 0) (ht : t < 8) : s ||| t = s + t := by
  obtain ⟨k, hk⟩ := Nat.dvd_of_mod_eq_zero h8
  subst hk
  have h2 : (8 : Nat) = 2 ^ 3 := by norm_num
  rw [h2]
  exact (Nat.mul_add_lt_is_or (by omega) k).symm

theorem GET_TAG_cases (st : State) (p : Nat) :
    GET_TAG st p = 0 ∨ GET_TAG st p = 2 := by
  rw [GET_TAG_eq]
  omega

/-- Re-reading the size field of a word freshly written by tag-preserving
`PUT` of a packed value recovers the packed size: the preserved RA bit and
the allocation bit are both masked away. -/
theorem GET_SIZE_PUT_PACK (st : State) (p s a : Nat) (h8 : s % 8 = 0)
    (hlt : s + 8 < M32) : GET_SIZE (PUT st p (PACK s a)) p = s := by
  have hM : M32 = 4294967296 := rfl
  have hu : (a &&& 1) ||| GET_TAG st p < 8 := by
    have h1 : a &&& 1 = 0 ∨ a &&& 1 = 1 := by rw [Nat.and_one_is_mod]; omega
    rcases h1 with h1 | h1 <;> rcases GET_TAG_cases st p with h2 | h2 <;>
      rw [h1, h2] <;> decide
  have hor : PACK s a ||| GET_TAG st p = s + ((a &&& 1) ||| GET_TAG st p) := by
    rw [PACK, Nat.or_assoc]
    exact or_low h8 hu
  unfold GET_SIZE
  rw [GET_PUT, if_pos rfl, land_sub8, hor]
  have hv : s + ((a &&& 1) ||| GET_TAG st p) < M32 := by omega
  rw [Nat.mod_eq_of_lt hv, Nat.mod_eq_of_lt hv]
  omega

theorem GET_SIZE_PUT_NOTAG_PACK (st : State) (p s a : Nat) (h8 : s % 8 = 0)
    (hlt : s + 8 < M32) : GET_SIZE (PUT_NOTAG st p (PACK s a)) p = s := by
  have hM : M32 = 4294967296 := rfl
  have hu : a &&& 1 < 8 := by rw [Nat.and_one_is_mod]; omega
  have hor : PACK s a = s + (a &&& 1) := by
    rw [PACK]
    exact or_low h8 hu
  unfold GET_SIZE
  rw [GET_PUT_NOTAG, if_pos rfl, land_sub8, hor]
  have hv : s + (a &&& 1) < M32 := by omega
  rw [Nat.mod_eq_of_lt hv, Nat.mod_eq_of_lt hv]
  omega

theorem NEXT_BLKP_eq (st : State) (p : Nat) :
    NEXT_BLKP st p = p + GET_SIZE st (HDRP p) := rfl

theorem PREV_BLKP_eq (st : State) (p : Nat) :
    PREV_BLKP st p = p - GET_SIZE st (p - DSIZE) := rfl

theorem FTRP_eq (st : State) (p : Nat) :
    FTRP st p = p + GET_SIZE st (HDRP p) - DSIZE := rfl

theorem predChain_nil (st : State) (n : Nat) : predChain st n 0 = [] := by
  cases n <;> simp [predChain]

theorem predChain_congr (st st' : State) (n : Nat) (q : Nat)
    (h : ∀ x ∈ predChain st n q, GET st' x = GET st x) :
    predChain st' n q = predChain st n q := by
  induction n generalizing q with
  | zero => rfl
  | succ n ih =>
    by_cases hq : q = 0
    · simp [predChain, hq]
    · rw [predChain, predChain, if_neg hq, if_neg hq]
      have hmem : GET st' q = GET st q := h q (by rw [predChain, if_neg hq]; exact .head _)
      have htail := ih (PRED st q) (fun x hx => h x (by
        rw [predChain, if_neg hq]; exact .tail _ hx))
      rw [List.cons.injEq]
      exact ⟨rfl, by rw [show PRED st' q = PRED st q from hmem, htail]⟩

theorem selectListSizeGo_snd_le (k : Nat) :
    ∀ list size : Nat, list + k = LISTLIMIT - 1 →
      (selectListSizeGo k list size).2 ≤ max 1 (size >>> k) := by
  induction k with
  | zero =>
    intro list size _
    simp only [selectListSizeGo, Nat.shiftRight_zero]
    exact Nat.le_max_right 1 size
  | succ k ih =>
    intro list size h
    rw [selectListSizeGo]
    by_cases hc : list < LISTLIMIT - 1 ∧ 1 < size
    · rw [if_pos hc]
      have := ih (list + 1) (size >>> 1) (by omega)
      rw [← Nat.shiftRight_add, Nat.add_comm 1 k] at this
      exact this
    · rw [if_neg hc]
      have hs : size ≤ 1 := by
        rcases Nat.lt_or_ge list (LISTLIMIT - 1) with h1 | h1
        · by_contra hgt
          exact hc ⟨h1, by omega⟩
        · omega
      exact le_trans hs (Nat.le_max_left _ _)

theorem selectListSize_snd_le_one {size : Nat} (h : size < 2 ^ 20) :
    (selectListSize 0 size).2 ≤ 1 := by
  have hb := selectListSizeGo_snd_le (LISTLIMIT - 1) 0 size (by rfl)
  rw [selectListSize]
  refine le_trans hb ?_
  have h19 : size >>> (LISTLIMIT - 1) ≤ 1 := by
    rw [Nat.shiftRight_eq_div_pow]
    have he : LISTLIMIT - 1 = 19 := by rfl
    rw [he]
    omega
  omega

theorem insertSearch_stop {st : State} {size p i : Nat} (fuel : Nat)
    (h : p = 0 ∨ size ≤ GET_SIZE st (HDRP p)) :
    insertSearch st size fuel p i = (p, i) := by
  cases fuel with
  | zero => rfl
  | succ fuel =>
    rw [insertSearch, if_neg]
    rcases h with h | h
    · simp [h]
    · rintro ⟨-, hlt⟩
      omega

/-! ### C7, C8 and C10 -/

theorem mm_malloc_extend_fail (fuel s : Nat) (st : State) (hs : s ≠ 0)
    (hsearch : searchLists st (adjustSize s) fuel 0 (adjustSize s) = 0)
    (hfail : st.limit < st.brk + ALIGN (max (adjustSize s) CHUNKSIZE)) :
    mm_malloc fuel st s = (0, st) := by
  simp only [mm_malloc, if_neg hs, hsearch, if_pos rfl, extend_heap, mem_sbrk,
    if_neg (show ¬ st.brk + ALIGN (max (adjustSize s) CHUNKSIZE) ≤ st.limit by omega),
    if_true]

theorem mm_realloc_inplace_extend_fail (fuel s p : Nat) (st : State) (hs : s ≠ 0)
    (hbb : toInt32 (sub32 (GET_SIZE st (HDRP p)) (adjustSize s + REALLOC_BUFFER)) < 0)
    (hnext : GET_ALLOC st (HDRP (NEXT_BLKP st p)) = 0 ∨
      GET_SIZE st (HDRP (NEXT_BLKP st p)) = 0)
    (hrem : toInt32 (sub32 ((GET_SIZE st (HDRP p) + GET_SIZE st (HDRP (NEXT_BLKP st p))) % M32)
      (adjustSize s + REALLOC_BUFFER)) < 0)
    (hfail : st.limit < st.brk + ALIGN (max
      (-(toInt32 (sub32 ((GET_SIZE st (HDRP p) + GET_SIZE st (HDRP (NEXT_BLKP st p))) % M32)
        (adjustSize s + REALLOC_BUFFER)))) ((CHUNKSIZE : Int))).toNat) :
    mm_realloc fuel st p s = (0, st) := by
  have hf : ¬ st.brk + ALIGN (max
      (-(toInt32 (sub32 ((GET_SIZE st (HDRP p) + GET_SIZE st (HDRP (NEXT_BLKP st p))) % M32)
        (adjustSize s + REALLOC_BUFFER)))) ((CHUNKSIZE : Int))).toNat ≤ st.limit := by
    omega
  simp only [mm_realloc, if_neg hs, if_pos hbb, if_pos hnext, if_pos hrem, extend_heap,
    mem_sbrk, if_neg hf, if_true]

theorem mm_realloc_reloc_malloc_fail (fuel s p : Nat) (st : State) (hs : s ≠ 0)
    (hbb : toInt32 (sub32 (GET_SIZE st (HDRP p)) (adjustSize s + REALLOC_BUFFER)) < 0)
    (hnext : ¬ (GET_ALLOC st (HDRP (NEXT_BLKP st p)) = 0 ∨
      GET_SIZE st (HDRP (NEXT_BLKP st p)) = 0))
    (hsearch : searchLists st (adjustSize (adjustSize s + REALLOC_BUFFER - DSIZE)) fuel 0
      (adjustSize (adjustSize s + REALLOC_BUFFER - DSIZE)) = 0)
    (hfail : st.limit < st.brk +
      ALIGN (max (adjustSize (adjustSize s + REALLOC_BUFFER - DSIZE)) CHUNKSIZE)) :
    (mm_realloc fuel st p s).1 = 0 := by
  have hm := mm_malloc_extend_fail fuel (adjustSize s + REALLOC_BUFFER - DSIZE) st
    (by simp only [REALLOC_BUFFER, DSIZE]; omega) hsearch hfail
  simp only [mm_realloc, if_neg hs, if_pos hbb, if_neg hnext, hm, realloc_finish]

/-- C7: whenever the heap-extend primitive fails, the public operation
returns `NULL`: (a) `mm_malloc` whose free-list search found nothing
and whose direct extension fails returns `NULL` with the state
untouched; (b) `mm_realloc` growing in place whose extension fails
returns `NULL` with the state untouched; (c) `mm_realloc` relocating
through `mm_malloc` returns `NULL` when the allocation inside fails
(the source then still runs `memcpy` and `mm_free` on the `NULL`
result — undefined behaviour in C — but the value handed back to the
caller is `NULL`). -/
theorem extend_failure_returns_null (fuel s p : Nat) (st : State) (hs : s ≠ 0) :
    (searchLists st (adjustSize s) fuel 0 (adjustSize s) = 0 →
      st.limit < st.brk + ALIGN (max (adjustSize s) CHUNKSIZE) →
      mm_malloc fuel st s = (0, st)) ∧
    (toInt32 (sub32 (GET_SIZE st (HDRP p)) (adjustSize s + REALLOC_BUFFER)) < 0 →
      (GET_ALLOC st (HDRP (NEXT_BLKP st p)) = 0 ∨
        GET_SIZE st (HDRP (NEXT_BLKP st p)) = 0) →
      toInt32 (sub32 ((GET_SIZE st (HDRP p) + GET_SIZE st (HDRP (NEXT_BLKP st p))) % M32)
        (adjustSize s + REALLOC_BUFFER)) < 0 →
      st.limit < st.brk + ALIGN (max
        (-(toInt32 (sub32 ((GET_SIZE st (HDRP p) + GET_SIZE st (HDRP (NEXT_BLKP st p))) % M32)
          (adjustSize s + REALLOC_BUFFER)))) ((CHUNKSIZE : Int))).toNat →
      mm_realloc fuel st p s = (0, st)) ∧
    (toInt32 (sub32 (GET_SIZE st (HDRP p)) (adjustSize s + REALLOC_BUFFER)) < 0 →
      ¬ (GET_ALLOC st (HDRP (NEXT_BLKP st p)) = 0 ∨
        GET_SIZE st (HDRP (NEXT_BLKP st p)) = 0) →
      searchLists st (adjustSize (adjustSize s + REALLOC_BUFFER - DSIZE)) fuel 0
        (adjustSize (adjustSize s + REALLOC_BUFFER - DSIZE)) = 0 →
      st.limit < st.brk +
        ALIGN (max (adjustSize (adjustSize s + REALLOC_BUFFER - DSIZE)) CHUNKSIZE) →
      (mm_realloc fuel st p s).1 = 0) :=
  ⟨fun h1 h2 => mm_malloc_extend_fail fuel s st hs h1 h2,
   fun h1 h2 h3 h4 => mm_realloc_inplace_extend_fail fuel s p st hs h1 h2 h3 h4,
   fun h1 h2 h3 h4 => mm_realloc_reloc_malloc_fail fuel s p st hs h1 h2 h3 h4⟩

/-- Witness for C7: all three failure paths exercised on concrete
exhausted heaps — pristine heap with zero capacity for `mm_malloc`;
`sB` (full 80-byte heap, block followed by the epilogue) for the
in-place growth path; `sC` (full heap, block followed by an allocated
block) for the relocation path. -/
theorem extend_failure_returns_null_witness :
    mm_malloc 3 (initState 0) 1 = (0, initState 0) ∧
    mm_realloc 100 sB 16 100 = (0, sB) ∧
    (mm_realloc 100 sC 16 100).1 = 0 :=
  ⟨(extend_failure_returns_null 3 1 0 (initState 0) (by decide)).1 (by decide) (by decide),
   (extend_failure_returns_null 100 100 16 sB (by decide)).2.1 (by decide) (by decide)
     (by decide) (by decide),
   (extend_failure_returns_null 100 100 16 sC (by decide)).2.2 (by decide) (by decide)
     (by decide) (by decide)⟩

/-- C8: in every allocator state, `mm_malloc(0)` returns `NULL` and
`mm_realloc(p, 0)` returns `NULL`, and in both cases the heap state is
completely unchanged — a size-0 request is a no-op, not an error. -/
theorem malloc_zero_and_realloc_zero_noop (fuel : Nat) (st : State) (p : Nat) :
    mm_malloc fuel st 0 = (0, st) ∧ mm_realloc fuel st p 0 = (0, st) :=
  ⟨by simp [mm_malloc], by simp [mm_realloc]⟩

/-- C10: if `p`'s block is at least `a + REALLOC_BUFFER` bytes, where
`a` is the adjusted size that `mm_malloc` would compute for `s`, then
`mm_realloc(p, s)` with `s > 0` returns `p` and leaves the state
entirely unchanged (in this build even the tagging of the next block is
a vacuous computation, so nothing at all is written). -/
theorem realloc_big_slack_identity (fuel s p : Nat) (st : State) (hs : s ≠ 0)
    (hlt : GET_SIZE st (HDRP p) < 2147483648)
    (hfit : adjustSize s + REALLOC_BUFFER ≤ GET_SIZE st (HDRP p)) :
    mm_realloc fuel st p s = (p, st) := by
  have hsub : sub32 (GET_SIZE st (HDRP p)) (adjustSize s + REALLOC_BUFFER) =
      GET_SIZE st (HDRP p) - (adjustSize s + REALLOC_BUFFER) :=
    sub32_of_le hfit (GET_SIZE_lt st (HDRP p))
  simp only [mm_realloc, if_neg hs, hsub, toInt32_of_lt (show GET_SIZE st (HDRP p) -
    (adjustSize s + REALLOC_BUFFER) < 2147483648 by omega)]
  rw [if_neg (by omega), realloc_finish]

/-- Witness for C10 at a concrete input: the 160-byte block at payload
16 of `bigSlackState`, resized with `s = 16` (adjusted 24, plus the
128-byte buffer: 152 ≤ 160). -/
theorem realloc_big_slack_identity_witness :
    mm_realloc 9 bigSlackState 16 16 = (16, bigSlackState) := by
  apply realloc_big_slack_identity 9 16 16 bigSlackState (by decide)
  · decide
  · decide

/-! ### C1 -/

/-- Counterexample for C1: after the reachable trace
`init; malloc(56); malloc(24); malloc(24); malloc(32); malloc(40);
free(144); free(80)`, segregated list 5 holds the two free blocks and
its PRED-traversal from the head is `[80, 144]` — the addresses
*ascend* from the head, so the traversal is not in strictly descending
block-address order (nor does the head hold the largest address). -/
theorem lists_not_address_descending :
    Reachable q7 ∧
    predChain q7 20 (listHead q7 5) = [80, 144] ∧
    addrDescending (predChain q7 20 (listHead q7 5)) = false := by
  refine ⟨?_, by decide, by decide⟩
  have h0 : Reachable sH := Reachable.init 100000 100 sH sH_init
  have h1 : Reachable q1 := by
    have h := Reachable.malloc sH 56 100 h0
    rw [q1_step] at h
    exact h
  have h2 : Reachable q2 := by
    have h := Reachable.malloc q1 24 100 h1
    rw [q2_step] at h
    exact h
  have h3 : Reachable q3 := by
    have h := Reachable.malloc q2 24 100 h2
    rw [q3_step] at h
    exact h
  have h4 : Reachable q4 := by
    have h := Reachable.malloc q3 32 100 h3
    rw [q4_step] at h
    exact h
  have h5 : Reachable q5 := by
    have h := Reachable.malloc q4 40 100 h4
    rw [q5_step] at h
    exact h
  have h6 : Reachable q6 := by
    have h := Reachable.free q5 144 100 h5 (by decide)
    rw [q6_step] at h
    exact h
  have h7 := Reachable.free q6 80 100 h6 (by decide)
  rw [q7_step] at h7
  exact h7

/-- C1 (amended): the lists are not kept in address order at all.
`insert_node` always splices the new block in at the head of its size
class — the size-class loop has already shifted `size` down to at most
1 (for any block size below 2^20), so the ordered-insertion walk never
advances past a real block (whose size is at least 16) — and hence the
PRED-traversal from the head visits blocks in most-recently-inserted
first (LIFO) order, terminating at a null PRED.  Formally: inserting
`ptr` turns the PRED-chain `c` of its size class into `ptr :: c`,
under sanity hypotheses saying that the old chain's link words are not
aliased by the splice writes. -/
theorem insert_node_lifo_push (fuel n : Nat) (st : State) (ptr size0 : Nat)
    (hp : ptr ≠ 0)
    (hsz : size0 < 2 ^ 20)
    (hblk : listHead st (selectListSize 0 size0).1 = 0 ∨
      16 ≤ GET_SIZE st (HDRP (listHead st (selectListSize 0 size0).1)))
    (hhead : listHead st (selectListSize 0 size0).1 < M32)
    (havoid : ∀ q ∈ predChain st n (listHead st (selectListSize 0 size0).1),
      q ≠ ptr ∧ q ≠ ptr + 4 ∧ q ≠ listHead st (selectListSize 0 size0).1 + 4)
    (hp4 : ptr ≠ listHead st (selectListSize 0 size0).1 + 4) :
    listHead (insert_node fuel st ptr size0) (selectListSize 0 size0).1 = ptr ∧
    predChain (insert_node fuel st ptr size0) (n + 1)
      (listHead (insert_node fuel st ptr size0) (selectListSize 0 size0).1) =
      ptr :: predChain st n (listHead st (selectListSize 0 size0).1) := by
  have hstop : insertSearch st (selectListSize 0 size0).2 fuel
      (listHead st (selectListSize 0 size0).1) 0 =
      (listHead st (selectListSize 0 size0).1, 0) := by
    refine insertSearch_stop fuel ?_
    rcases hblk with h | h
    · exact Or.inl h
    · exact Or.inr (le_trans (le_trans (selectListSize_snd_le_one hsz) (by omega)) h)
  have hlists : listHead (insert_node fuel st ptr size0) (selectListSize 0 size0).1 = ptr := by
    simp only [insert_node, hstop]
    by_cases hh : listHead st (selectListSize 0 size0).1 = 0 <;>
      simp only [listHead] at hh <;>
      simp [hh, SET_PTR, setListHead, listHead, lookupW]
  have hmem : ∀ x, GET (insert_node fuel st ptr size0) x =
      if x = SUCC_PTR ptr then 0
      else if x = SUCC_PTR (listHead st (selectListSize 0 size0).1) ∧
          listHead st (selectListSize 0 size0).1 ≠ 0 then ptr % M32
      else if x = ptr then listHead st (selectListSize 0 size0).1 % M32
      else GET st x := by
    intro x
    simp only [insert_node, hstop]
    by_cases hh : listHead st (selectListSize 0 size0).1 = 0 <;>
      simp only [listHead] at hh <;>
      simp [hh, SET_PTR, setListHead, PRED_PTR, SUCC_PTR, GET, listHead, lookupW]
  have hsucc : ∀ q : Nat, SUCC_PTR q = q + 4 := fun _ => rfl
  refine ⟨hlists, ?_⟩
  rw [hlists, predChain, if_neg hp]
  have hpred : PRED (insert_node fuel st ptr size0) ptr =
      listHead st (selectListSize 0 size0).1 := by
    have ha : ¬ ptr = SUCC_PTR ptr := by rw [hsucc]; omega
    have hb : ¬ (ptr = SUCC_PTR (listHead st (selectListSize 0 size0).1) ∧
        listHead st (selectListSize 0 size0).1 ≠ 0) := by
      rintro ⟨hc, -⟩
      exact hp4 (by rw [hsucc] at hc; exact hc)
    rw [PRED, hmem ptr, if_neg ha, if_neg hb, if_pos rfl, Nat.mod_eq_of_lt hhead]
  rw [hpred]
  refine congrArg _ (predChain_congr _ _ _ _ ?_)
  intro x hx
  rcases havoid x hx with ⟨h1, h2, h3⟩
  have ha : ¬ x = SUCC_PTR ptr := by rw [hsucc]; exact h2
  have hb : ¬ (x = SUCC_PTR (listHead st (selectListSize 0 size0).1) ∧
      listHead st (selectListSize 0 size0).1 ≠ 0) := by
    rintro ⟨hc, -⟩
    exact h3 (by rw [hsucc] at hc; exact hc)
  rw [hmem x, if_neg ha, if_neg hb, if_neg h1]

/-- Witness for the amended C1 theorem: inserting a fresh block at
payload 200 (size 32, class 5) into the post-`init` heap pushes it at
the head of the empty list 5. -/
theorem insert_node_lifo_push_witness :
    listHead (insert_node 10 sH 200 32) (selectListSize 0 32).1 = 200 ∧
    predChain (insert_node 10 sH 200 32) 4
      (listHead (insert_node 10 sH 200 32) (selectListSize 0 32).1) =
      200 :: predChain sH 3 (listHead sH (selectListSize 0 32).1) :=
  insert_node_lifo_push 10 3 sH 200 32 (by decide) (by decide) (by decide)
    (by decide) (by decide) (by decide)

/-! ### The tag-free invariant (for C3) -/

theorem lookupW_val {m : List (Nat × Nat)} {x : Nat} :
    lookupW m x = 0 ∨ ∃ pr ∈ m, pr.2 = lookupW m x := by
  induction m with
  | nil => exact Or.inl rfl
  | cons hd tl ih =>
    rw [lookupW]
    by_cases hx : x = hd.1
    · exact Or.inr ⟨hd, List.mem_cons_self _ _, by simp [hx]⟩
    · rcases ih with h | ⟨pr, hm, hv⟩
      · exact Or.inl (by simp [hx, h])
      · exact Or.inr ⟨pr, List.mem_cons_of_mem _ hm, by simp [hx, hv]⟩

theorem tagFree_of_values (st : State)
    (h1 : ∀ pr ∈ st.mem, pr.2 % 4 < 2) (h2 : ∀ pr ∈ st.lists, pr.2 % 4 < 2) :
    TagFree st := by
  constructor
  · intro a
    rcases lookupW_val (m := st.mem) (x := a) with h | ⟨pr, hm, hv⟩
    · rw [GET, h]; omega
    · rw [GET, ← hv]; exact h1 pr hm
  · intro i
    rcases lookupW_val (m := st.lists) (x := i) with h | ⟨pr, hm, hv⟩
    · rw [listHead, h]; omega
    · rw [listHead, ← hv]; exact h2 pr hm

theorem PACK_mod4 {s : Nat} (al : Nat) (h : s % 8 = 0) : PACK s al % 4 < 2 := by
  rw [PACK_eq al h]
  omega

theorem mod_M32_mod4 (v : Nat) : v % M32 % 4 = v % 4 :=
  Nat.mod_mod_of_dvd v ⟨1073741824, by norm_num [M32]⟩

theorem GET_TAG_zero {st : State} (h : TagFree st) (p : Nat) : GET_TAG st p = 0 :=
  GET_TAG_eq_zero (h.1 p)

theorem TagFree_SET_PTR {st : State} (h : TagFree st) {v : Nat} (hv : v % 4 < 2)
    (p : Nat) : TagFree (SET_PTR st p v) := by
  refine ⟨fun a => ?_, h.2⟩
  rw [GET, SET_PTR, lookupW]
  by_cases ha : a = p
  · rw [if_pos ha, mod_M32_mod4]; exact hv
  · rw [if_neg ha]; exact h.1 a

theorem TagFree_PUT_NOTAG {st : State} (h : TagFree st) {v : Nat} (hv : v % 4 < 2)
    (p : Nat) : TagFree (PUT_NOTAG st p v) := by
  refine ⟨fun a => ?_, h.2⟩
  rw [GET, PUT_NOTAG, lookupW]
  by_cases ha : a = p
  · rw [if_pos ha, mod_M32_mod4]; exact hv
  · rw [if_neg ha]; exact h.1 a

theorem TagFree_PUT {st : State} (h : TagFree st) {v : Nat} (hv : v % 4 < 2)
    (p : Nat) : TagFree (PUT st p v) := by
  refine ⟨fun a => ?_, h.2⟩
  rw [GET, PUT, GET_TAG_zero h, Nat.or_zero, lookupW]
  by_cases ha : a = p
  · rw [if_pos ha, mod_M32_mod4]; exact hv
  · rw [if_neg ha]; exact h.1 a

theorem TagFree_setListHead {st : State} (h : TagFree st) {v : Nat} (hv : v % 4 < 2)
    (i : Nat) : TagFree (setListHead st i v) := by
  refine ⟨h.1, fun j => ?_⟩
  rw [listHead, setListHead, lookupW]
  by_cases hj : j = i
  · rw [if_pos hj]; exact hv
  · rw [if_neg hj]; exact h.2 j

theorem insertSearch_vals {st : State} (h : TagFree st) (size : Nat) :
    ∀ (fuel : Nat) {p i : Nat}, p % 4 < 2 → i % 4 < 2 →
      (insertSearch st size fuel p i).1 % 4 < 2 ∧
      (insertSearch st size fuel p i).2 % 4 < 2 := by
  intro fuel
  induction fuel with
  | zero => exact fun hp hi => ⟨hp, hi⟩
  | succ fuel ih =>
    intro p i hp hi
    rw [insertSearch]
    by_cases hc : p ≠ 0 ∧ GET_SIZE st (HDRP p) < size
    · rw [if_pos hc]
      exact ih (h.1 p) hp
    · rw [if_neg hc]
      exact ⟨hp, hi⟩

theorem TagFree_insert_node (fuel : Nat) {st : State} (h : TagFree st) {ptr : Nat}
    (hptr : ptr % 4 < 2) (size0 : Nat) : TagFree (insert_node fuel st ptr size0) := by
  have hsr := insertSearch_vals h (selectListSize 0 size0).2 fuel
    (h.2 (selectListSize 0 size0).1) (show 0 % 4 < 2 by omega)
  rw [insert_node]
  split_ifs
  · exact TagFree_SET_PTR (TagFree_SET_PTR (TagFree_SET_PTR
      (TagFree_SET_PTR h hsr.1 _) hptr _) hsr.2 _) hptr _
  · exact TagFree_setListHead (TagFree_SET_PTR (TagFree_SET_PTR
      (TagFree_SET_PTR h hsr.1 _) hptr _) (by omega) _) hptr _
  · exact TagFree_SET_PTR (TagFree_SET_PTR
      (TagFree_SET_PTR h (by omega) _) hsr.2 _) hptr _
  · exact TagFree_setListHead (TagFree_SET_PTR (TagFree_SET_PTR
      h (by omega) _) (by omega) _) hptr _

theorem TagFree_delete_node {st : State} (h : TagFree st) (ptr : Nat) :
    TagFree (delete_node st ptr) := by
  rw [delete_node]
  split_ifs
  · have h1 := TagFree_SET_PTR h (h.1 (SUCC_PTR ptr)) (SUCC_PTR (PRED st ptr))
    exact TagFree_SET_PTR h1 (h1.1 ptr) _
  · have h1 := TagFree_SET_PTR h (show (0 : Nat) % 4 < 2 by omega)
      (SUCC_PTR (PRED st ptr))
    exact TagFree_setListHead h1 (h1.1 ptr) _
  · exact TagFree_SET_PTR h (by omega) _
  · exact TagFree_setListHead h (by omega) _

theorem sub_mod8 {p s : Nat} (hp : p % 8 = 0) (hs : s % 8 = 0) : (p - s) % 8 = 0 := by
  omega

theorem PREV_BLKP_mod8 {st : State} {p : Nat} (hp : p % 8 = 0) :
    PREV_BLKP st p % 8 = 0 :=
  sub_mod8 hp (GET_SIZE_mod8 st (p - DSIZE))

theorem NEXT_BLKP_mod8 {st : State} {p : Nat} (hp : p % 8 = 0) :
    NEXT_BLKP st p % 8 = 0 := by
  have h := GET_SIZE_mod8 st (p - WSIZE)
  rw [NEXT_BLKP]
  omega

theorem PREV_BLKP_mod8' {st : State} {p : Nat} (hp : p % 8 = 0) :
    PREV_BLKP st p % 4 < 2 := by
  have h := @PREV_BLKP_mod8 st _ hp
  omega

theorem TagFree_coalesce (fuel : Nat) {st : State} (h : TagFree st) {ptr : Nat}
    (hptr : ptr % 8 = 0) :
    TagFree (coalesce fuel st ptr).2 ∧ (coalesce fuel st ptr).1 % 8 = 0 := by
  have hp4 : ptr % 4 < 2 := by omega
  have c2 : ∀ st2 : State, TagFree st2 → ∀ a b sz, sz % 8 = 0 →
      TagFree (insert_node fuel (PUT (PUT st2 a (PACK sz 0)) b (PACK sz 0)) ptr sz) :=
    fun st2 h2 a b sz hsz => TagFree_insert_node fuel
      (TagFree_PUT (TagFree_PUT h2 (PACK_mod4 0 hsz) _) (PACK_mod4 0 hsz) _) hp4 _
  have c3 : ∀ st2 : State, TagFree st2 → ∀ a b sz q, sz % 8 = 0 → q % 4 < 2 →
      TagFree (insert_node fuel (PUT (PUT st2 a (PACK sz 0)) b (PACK sz 0)) q sz) :=
    fun st2 h2 a b sz q hsz hq => TagFree_insert_node fuel
      (TagFree_PUT (TagFree_PUT h2 (PACK_mod4 0 hsz) _) (PACK_mod4 0 hsz) _) hq _
  simp only [coalesce]
  split_ifs
  · exact ⟨h, hptr⟩
  · exact ⟨c2 _ (TagFree_delete_node (TagFree_delete_node h _) _) _ _ _
      (by simp [Nat.add_mod, GET_SIZE_mod8]), hptr⟩
  · exact ⟨c3 _ (TagFree_delete_node (TagFree_delete_node h _) _) _ _ _ _
      (by simp [Nat.add_mod, GET_SIZE_mod8]) (PREV_BLKP_mod8' hptr), PREV_BLKP_mod8 hptr⟩
  · exact ⟨c3 _ (TagFree_delete_node (TagFree_delete_node (TagFree_delete_node h _) _) _)
      _ _ _ _ (by simp [Nat.add_mod, GET_SIZE_mod8]) (PREV_BLKP_mod8' hptr),
      PREV_BLKP_mod8 hptr⟩
  · exact ⟨h, hptr⟩
  · exact ⟨c2 _ (TagFree_delete_node (TagFree_delete_node h _) _) _ _ _
      (by simp [Nat.add_mod, GET_SIZE_mod8]), hptr⟩
  · exact ⟨c3 _ (TagFree_delete_node (TagFree_delete_node h _) _) _ _ _ _
      (by simp [Nat.add_mod, GET_SIZE_mod8]) (PREV_BLKP_mod8' hptr), PREV_BLKP_mod8 hptr⟩
  · exact ⟨c3 _ (TagFree_delete_node (TagFree_delete_node (TagFree_delete_node h _) _) _)
      _ _ _ _ (by simp [Nat.add_mod, GET_SIZE_mod8]) (PREV_BLKP_mod8' hptr),
      PREV_BLKP_mod8 hptr⟩

theorem TagFree_mm_free (fuel : Nat) {st : State} (h : TagFree st) {p : Nat}
    (hp : p % 8 = 0) : TagFree (mm_free fuel st p) := by
  rw [mm_free]
  refine (TagFree_coalesce fuel ?_ hp).1
  refine TagFree_insert_node fuel ?_ (by omega) _
  refine TagFree_PUT (TagFree_PUT h ?_ _) ?_ _ <;>
    exact PACK_mod4 0 (GET_SIZE_mod8 _ _)

/-- C3: `mm_free(p)` leaves the RA bit of the header word of the block
physically after `p`'s block at 0 — reading the next-block header
either in the pre-state or in the post-state — and in fact leaves
every RA bit of the heap at 0.  In this source the `REMOVE_RATAG` call
in `mm_free` stores nothing, but the observable contract holds anyway
because no operation ever sets an RA bit (`SET_RATAG` stores nothing
either), so a tag-free heap stays tag-free. -/
theorem free_clears_next_ra_bit (fuel p : Nat) (st : State) (hp : p % 8 = 0)
    (htf : TagFree st) :
    GET_TAG (mm_free fuel st p) (HDRP (NEXT_BLKP st p)) = 0 ∧
    GET_TAG (mm_free fuel st p) (HDRP (NEXT_BLKP (mm_free fuel st p) p)) = 0 ∧
    TagFree (mm_free fuel st p) := by
  have h := TagFree_mm_free fuel htf hp
  exact ⟨GET_TAG_zero h _, GET_TAG_zero h _, h⟩

/-- Witness for C3 at a concrete input: `free(144)` on the reachable
state `q5` (the C1 trace before its two frees). -/
theorem free_clears_next_ra_bit_witness :
    GET_TAG (mm_free 100 q5 144) (HDRP (NEXT_BLKP q5 144)) = 0 ∧
    GET_TAG (mm_free 100 q5 144) (HDRP (NEXT_BLKP (mm_free 100 q5 144) 144)) = 0 ∧
    TagFree (mm_free 100 q5 144) :=
  free_clears_next_ra_bit 100 144 q5 (by decide)
    (tagFree_of_values q5 (by decide) (by decide))


/-- C2 fails on this source: `SET_RATAG` computes `GET(p) | 0x2` but
never stores it, so the RA bit is never written.  On the reachable
trace `init; p := malloc(150); realloc(p, 16)` the resize returns
`p = 4016` unchanged-in-place with block size 160 and final slack
`160 - 152 = 8 < 256`, yet the RA bit of the next physical block's
header (the epilogue header at 4172) is still 0 after the call — the
code's own comment says it tags the next block here. -/
theorem ra_bit_not_set_by_realloc :
    Reachable r1 ∧
    mm_realloc 100 r1 4016 16 = (4016, r1) ∧
    GET_SIZE r1 (HDRP 4016) = 160 ∧
    adjustSize 16 + REALLOC_BUFFER = 152 ∧
    GET_TAG (mm_realloc 100 r1 4016 16).2
      (HDRP (NEXT_BLKP (mm_realloc 100 r1 4016 16).2 (mm_realloc 100 r1 4016 16).1)) = 0 := by
  refine ⟨?_, by decide, by decide, by decide, by decide⟩
  have h0 : Reachable sH := Reachable.init 100000 100 sH sH_init
  have h := Reachable.malloc sH 150 100 h0
  rw [r1_step] at h
  exact h

/-! ### C4: the four-case coalescing analysis -/

theorem coalesce_case1_eq (fuel : Nat) (st : State) (b : Nat)
    (hP : (if GET_TAG st (HDRP (PREV_BLKP st b)) ≠ 0 then 1
      else GET_ALLOC st (HDRP (PREV_BLKP st b))) ≠ 0)
    (hN : GET_ALLOC st (HDRP (NEXT_BLKP st b)) ≠ 0) :
    coalesce fuel st b = (b, st) := by
  simp only [coalesce]
  rw [if_pos ⟨hP, hN⟩]

theorem coalesce_case2_eq (fuel : Nat) (st : State) (b pb nb sb sn : Nat)
    (hpb : PREV_BLKP st b = pb) (hnb : NEXT_BLKP st b = nb)
    (hsb : GET_SIZE st (HDRP b) = sb) (hsn : GET_SIZE st (HDRP nb) = sn)
    (hsz : sb + sn + 8 < 4294967296)
    (hfA : HDRP b ∉ deleteWrites st b)
    (hfB : HDRP b ∉ deleteWrites (delete_node st b) nb)
    (hfC : HDRP nb ∉ deleteWrites st b)
    (hfD : HDRP nb ∉ deleteWrites (delete_node st b) nb)
    (hP : (if GET_TAG st (HDRP pb) ≠ 0 then 1 else GET_ALLOC st (HDRP pb)) ≠ 0)
    (hN : GET_ALLOC st (HDRP nb) = 0) :
    coalesce fuel st b =
      (b, insert_node fuel
        (PUT (PUT (delete_node (delete_node st b) nb) (HDRP b) (PACK (sb + sn) 0))
          (nb + sn - DSIZE) (PACK (sb + sn) 0)) b (sb + sn)) := by
  have hM : M32 = 4294967296 := rfl
  have hD : DSIZE = 8 := rfl
  have h8b : sb % 8 = 0 := by rw [← hsb]; exact GET_SIZE_mod8 st (HDRP b)
  have h8n : sn % 8 = 0 := by rw [← hsn]; exact GET_SIZE_mod8 st (HDRP nb)
  have hnbb : nb = b + sb := by rw [← hnb, NEXT_BLKP_eq, hsb]
  simp only [coalesce]
  rw [hpb, hnb, hsb]
  rw [if_neg (fun hc => hc.2 hN), if_pos ⟨hP, hN⟩]
  have e1 : NEXT_BLKP (delete_node st b) b = nb := by
    rw [NEXT_BLKP_eq, GET_SIZE_delete_node hfA, hsb]
    omega
  rw [e1]
  have e2 : NEXT_BLKP (delete_node (delete_node st b) nb) b = nb := by
    rw [NEXT_BLKP_eq, GET_SIZE_delete_node hfB, GET_SIZE_delete_node hfA, hsb]
    omega
  rw [e2]
  have e3 : GET_SIZE (delete_node (delete_node st b) nb) (HDRP nb) = sn := by
    rw [GET_SIZE_delete_node hfD, GET_SIZE_delete_node hfC, hsn]
  rw [e3]
  have hpk8 : (sb + sn) % 8 = 0 := by omega
  have hpkM : sb + sn + 8 < M32 := by rw [hM]; omega
  have e4 : FTRP (PUT (delete_node (delete_node st b) nb) (HDRP b)
      (PACK (sb + sn) 0)) b = nb + sn - DSIZE := by
    rw [FTRP_eq, GET_SIZE_PUT_PACK _ _ _ _ hpk8 hpkM, hD]
    omega
  rw [e4]

theorem coalesce_case3_eq (fuel : Nat) (st : State) (b pb nb sb sp : Nat)
    (hpb : PREV_BLKP st b = pb) (hnb : NEXT_BLKP st b = nb)
    (hsb : GET_SIZE st (HDRP b) = sb) (hsp : GET_SIZE st (HDRP pb) = sp)
    (hb : 8 ≤ b) (hsb0 : sb ≠ 0)
    (hph : HDRP pb ≠ b - DSIZE)
    (hfA : b - DSIZE ∉ deleteWrites st b)
    (hfB : b - DSIZE ∉ deleteWrites (delete_node st b) pb)
    (hfC : HDRP pb ∉ deleteWrites st b)
    (hfD : HDRP pb ∉ deleteWrites (delete_node st b) pb)
    (hfE : HDRP b ∉ deleteWrites st b)
    (hfF : HDRP b ∉ deleteWrites (delete_node st b) pb)
    (hP : ¬ (if GET_TAG st (HDRP pb) ≠ 0 then 1 else GET_ALLOC st (HDRP pb)) ≠ 0)
    (hN : GET_ALLOC st (HDRP nb) ≠ 0) :
    coalesce fuel st b =
      (pb, insert_node fuel
        (PUT (PUT (delete_node (delete_node st b) pb) (b + sb - DSIZE)
          (PACK (sb + sp) 0)) (HDRP pb) (PACK (sb + sp) 0)) pb (sb + sp)) := by
  have hD : DSIZE = 8 := rfl
  simp only [coalesce]
  rw [hpb, hnb, hsb]
  rw [if_neg (fun hc => hP hc.1), if_neg (fun hc => hP hc.1),
    if_pos ⟨not_not.mp hP, hN⟩]
  have e1 : PREV_BLKP (delete_node st b) b = pb := by
    rw [PREV_BLKP_eq, GET_SIZE_delete_node hfA, ← PREV_BLKP_eq, hpb]
  rw [e1]
  have e2 : PREV_BLKP (delete_node (delete_node st b) pb) b = pb := by
    rw [PREV_BLKP_eq, GET_SIZE_delete_node hfB, GET_SIZE_delete_node hfA,
      ← PREV_BLKP_eq, hpb]
  rw [e2]
  have e3 : GET_SIZE (delete_node (delete_node st b) pb) (HDRP pb) = sp := by
    rw [GET_SIZE_delete_node hfD, GET_SIZE_delete_node hfC, hsp]
  rw [e3]
  have e4 : FTRP (delete_node (delete_node st b) pb) b = b + sb - DSIZE := by
    rw [FTRP_eq, GET_SIZE_delete_node hfF, GET_SIZE_delete_node hfE, hsb]
  rw [e4]
  have hne1 : b - DSIZE ≠ b + sb - DSIZE := by rw [hD]; omega
  have e5 : PREV_BLKP (PUT (delete_node (delete_node st b) pb) (b + sb - DSIZE)
      (PACK (sb + sp) 0)) b = pb := by
    rw [PREV_BLKP_eq, GET_SIZE_PUT_ne hne1, GET_SIZE_delete_node hfB,
      GET_SIZE_delete_node hfA, ← PREV_BLKP_eq, hpb]
  rw [e5]
  have hne2 : b - DSIZE ≠ HDRP pb := Ne.symm hph
  have e6 : PREV_BLKP (PUT (PUT (delete_node (delete_node st b) pb)
      (b + sb - DSIZE) (PACK (sb + sp) 0)) (HDRP pb) (PACK (sb + sp) 0)) b
      = pb := by
    rw [PREV_BLKP_eq, GET_SIZE_PUT_ne hne2, GET_SIZE_PUT_ne hne1,
      GET_SIZE_delete_node hfB, GET_SIZE_delete_node hfA, ← PREV_BLKP_eq, hpb]
  rw [e6]

theorem coalesce_case4_eq (fuel : Nat) (st : State) (b pb nb sb sp sn : Nat)
    (hpb : PREV_BLKP st b = pb) (hnb : NEXT_BLKP st b = nb)
    (hsb : GET_SIZE st (HDRP b) = sb) (hsp : GET_SIZE st (HDRP pb) = sp)
    (hsn : GET_SIZE st (HDRP nb) = sn)
    (hb : 8 ≤ b) (hpb4 : 4 ≤ pb) (hnb4 : 4 ≤ nb)
    (hpbb : pb ≠ b) (hpn : pb ≠ nb) (hsb0 : sb ≠ 0)
    (hph : HDRP pb ≠ b - DSIZE)
    (hfA : HDRP b ∉ deleteWrites st b)
    (hfB : HDRP b ∉ deleteWrites (delete_node st b) pb)
    (hfC : HDRP b ∉ deleteWrites (delete_node (delete_node st b) pb) nb)
    (hfD : b - DSIZE ∉ deleteWrites st b)
    (hfE : b - DSIZE ∉ deleteWrites (delete_node st b) pb)
    (hfF : b - DSIZE ∉ deleteWrites (delete_node (delete_node st b) pb) nb)
    (hfG : HDRP pb ∉ deleteWrites st b)
    (hfH : HDRP pb ∉ deleteWrites (delete_node st b) pb)
    (hfI : HDRP pb ∉ deleteWrites (delete_node (delete_node st b) pb) nb)
    (hfJ : HDRP nb ∉ deleteWrites st b)
    (hfK : HDRP nb ∉ deleteWrites (delete_node st b) pb)
    (hfL : HDRP nb ∉ deleteWrites (delete_node (delete_node st b) pb) nb)
    (hP : ¬ (if GET_TAG st (HDRP pb) ≠ 0 then 1 else GET_ALLOC st (HDRP pb)) ≠ 0)
    (hN : ¬ GET_ALLOC st (HDRP nb) ≠ 0) :
    coalesce fuel st b =
      (pb, insert_node fuel
        (PUT (PUT (delete_node (delete_node (delete_node st b) pb) nb)
          (HDRP pb) (PACK (sb + sp + sn) 0)) (nb + sn - DSIZE)
          (PACK (sb + sp + sn) 0)) pb (sb + sp + sn)) := by
  have hD : DSIZE = 8 := rfl
  have hnbb : nb = b + sb := by rw [← hnb, NEXT_BLKP_eq, hsb]
  simp only [coalesce]
  rw [hpb, hnb, hsb]
  rw [if_neg (fun hc => hN hc.2), if_neg (fun hc => hP hc.1),
    if_neg (fun hc => hN hc.2)]
  have e1 : PREV_BLKP (delete_node st b) b = pb := by
    rw [PREV_BLKP_eq, GET_SIZE_delete_node hfD, ← PREV_BLKP_eq, hpb]
  rw [e1]
  have e2 : NEXT_BLKP (delete_node (delete_node st b) pb) b = nb := by
    rw [NEXT_BLKP_eq, GET_SIZE_delete_node hfB, GET_SIZE_delete_node hfA, hsb]
    omega
  rw [e2]
  have e2b : NEXT_BLKP (delete_node (delete_node (delete_node st b) pb) nb) b
      = nb := by
    rw [NEXT_BLKP_eq, GET_SIZE_delete_node hfC, GET_SIZE_delete_node hfB,
      GET_SIZE_delete_node hfA, hsb]
    omega
  rw [e2b]
  have e3 : PREV_BLKP (delete_node (delete_node (delete_node st b) pb) nb) b
      = pb := by
    rw [PREV_BLKP_eq, GET_SIZE_delete_node hfF, GET_SIZE_delete_node hfE,
      GET_SIZE_delete_node hfD, ← PREV_BLKP_eq, hpb]
  rw [e3]
  have e4 : GET_SIZE (delete_node (delete_node (delete_node st b) pb) nb)
      (HDRP pb) = sp := by
    rw [GET_SIZE_delete_node hfI, GET_SIZE_delete_node hfH,
      GET_SIZE_delete_node hfG, hsp]
  rw [e4]
  have e5 : GET_SIZE (delete_node (delete_node (delete_node st b) pb) nb)
      (HDRP nb) = sn := by
    rw [GET_SIZE_delete_node hfL, GET_SIZE_delete_node hfK,
      GET_SIZE_delete_node hfJ, hsn]
  rw [e5]
  have hne1 : HDRP b ≠ HDRP pb := by
    simp only [HDRP, WSIZE]
    omega
  have e6 : NEXT_BLKP (PUT (delete_node (delete_node (delete_node st b) pb) nb)
      (HDRP pb) (PACK (sb + sp + sn) 0)) b = nb := by
    rw [NEXT_BLKP_eq, GET_SIZE_PUT_ne hne1, GET_SIZE_delete_node hfC,
      GET_SIZE_delete_node hfB, GET_SIZE_delete_node hfA, hsb]
    omega
  rw [e6]
  have hne2 : HDRP nb ≠ HDRP pb := by
    simp only [HDRP, WSIZE]
    omega
  have e7 : FTRP (PUT (delete_node (delete_node (delete_node st b) pb) nb)
      (HDRP pb) (PACK (sb + sp + sn) 0)) nb = nb + sn - DSIZE := by
    rw [FTRP_eq, GET_SIZE_PUT_ne hne2, GET_SIZE_delete_node hfL,
      GET_SIZE_delete_node hfK, GET_SIZE_delete_node hfJ, hsn]
  rw [e7]
  have hne3 : b - DSIZE ≠ nb + sn - DSIZE := by rw [hD]; omega
  have hne4 : b - DSIZE ≠ HDRP pb := Ne.symm hph
  have e8 : PREV_BLKP (PUT (PUT (delete_node (delete_node (delete_node st b) pb)
      nb) (HDRP pb) (PACK (sb + sp + sn) 0)) (nb + sn - DSIZE)
      (PACK (sb + sp + sn) 0)) b = pb := by
    rw [PREV_BLKP_eq, GET_SIZE_PUT_ne hne3, GET_SIZE_PUT_ne hne4,
      GET_SIZE_delete_node hfF, GET_SIZE_delete_node hfE,
      GET_SIZE_delete_node hfD, ← PREV_BLKP_eq, hpb]
  rw [e8]

/-- C4: `coalesce(B)` follows the specification's four-case analysis on
the allocation state of the physical neighbours `P` and `N`, with the
reallocation-tag veto applied to `P` only: under the separation and
non-aliasing side conditions of a sane heap layout, the code computes
exactly the up-front-addressed merge described by the specification
(`coalesce_spec`): case 1 returns `B` with the state unchanged; the
other cases unlink the participating free blocks, write the summed
size into the merged block's outermost header and footer, insert the
merged block, and return its base pointer. -/
theorem coalesce_follows_spec (fuel : Nat) (st : State) (b : Nat)
    (hb : 8 ≤ b) (hpb4 : 4 ≤ PREV_BLKP st b) (hnb4 : 4 ≤ NEXT_BLKP st b)
    (hpbb : PREV_BLKP st b ≠ b) (hpn : PREV_BLKP st b ≠ NEXT_BLKP st b)
    (hsb0 : GET_SIZE st (HDRP b) ≠ 0)
    (hph : HDRP (PREV_BLKP st b) ≠ b - DSIZE)
    (hsz : GET_SIZE st (HDRP (PREV_BLKP st b)) + GET_SIZE st (HDRP b) +
      GET_SIZE st (HDRP (NEXT_BLKP st b)) + 8 < M32)
    (hfr : coalesceFrameOK st b) :
    coalesce fuel st b = coalesce_spec fuel st b := by
  have hM : M32 = 4294967296 := rfl
  rw [hM] at hsz
  have hfB := hfr (HDRP b) (by simp [coalesceReads])
  have hfP := hfr (HDRP (PREV_BLKP st b)) (by simp [coalesceReads])
  have hfN := hfr (HDRP (NEXT_BLKP st b)) (by simp [coalesceReads])
  have hfF := hfr (b - DSIZE) (by simp [coalesceReads])
  have hPiff : ((if GET_TAG st (HDRP (PREV_BLKP st b)) ≠ 0 then 1
      else GET_ALLOC st (HDRP (PREV_BLKP st b))) ≠ 0) ↔
      (GET_TAG st (HDRP (PREV_BLKP st b)) ≠ 0 ∨
        GET_ALLOC st (HDRP (PREV_BLKP st b)) ≠ 0) := by
    by_cases ht : GET_TAG st (HDRP (PREV_BLKP st b)) ≠ 0
    · rw [if_pos ht]
      exact ⟨fun _ => Or.inl ht, fun _ => one_ne_zero⟩
    · rw [if_neg ht]
      exact ⟨Or.inr, fun hor => hor.resolve_left ht⟩
  by_cases hP : (if GET_TAG st (HDRP (PREV_BLKP st b)) ≠ 0 then 1
      else GET_ALLOC st (HDRP (PREV_BLKP st b))) ≠ 0
  · by_cases hN : GET_ALLOC st (HDRP (NEXT_BLKP st b)) ≠ 0
    · rw [coalesce_case1_eq fuel st b hP hN]
      simp only [coalesce_spec]
      rw [if_pos ⟨hPiff.mp hP, hN⟩]
    · rw [coalesce_case2_eq fuel st b (PREV_BLKP st b) (NEXT_BLKP st b)
        (GET_SIZE st (HDRP b)) (GET_SIZE st (HDRP (NEXT_BLKP st b)))
        rfl rfl rfl rfl (by omega) hfB.1 hfB.2.1 hfN.1 hfN.2.1 hP
        (not_not.mp hN)]
      simp only [coalesce_spec]
      rw [if_neg (fun hc => hN hc.2), if_pos ⟨hPiff.mp hP, hN⟩]
  · have hnP : ¬ (GET_TAG st (HDRP (PREV_BLKP st b)) ≠ 0 ∨
        GET_ALLOC st (HDRP (PREV_BLKP st b)) ≠ 0) :=
      fun h => hP (hPiff.mpr h)
    by_cases hN : GET_ALLOC st (HDRP (NEXT_BLKP st b)) ≠ 0
    · rw [coalesce_case3_eq fuel st b (PREV_BLKP st b) (NEXT_BLKP st b)
        (GET_SIZE st (HDRP b)) (GET_SIZE st (HDRP (PREV_BLKP st b)))
        rfl rfl rfl rfl hb hsb0 hph hfF.1 hfF.2.2.1 hfP.1 hfP.2.2.1
        hfB.1 hfB.2.2.1 hP hN]
      simp only [coalesce_spec]
      rw [if_neg (fun hc => hnP hc.1), if_neg (fun hc => hnP hc.1),
        if_pos ⟨hnP, hN⟩]
      rw [Nat.add_comm (GET_SIZE st (HDRP b))
        (GET_SIZE st (HDRP (PREV_BLKP st b)))]
    · rw [coalesce_case4_eq fuel st b (PREV_BLKP st b) (NEXT_BLKP st b)
        (GET_SIZE st (HDRP b)) (GET_SIZE st (HDRP (PREV_BLKP st b)))
        (GET_SIZE st (HDRP (NEXT_BLKP st b)))
        rfl rfl rfl rfl rfl hb hpb4 hnb4 hpbb hpn hsb0 hph
        hfB.1 hfB.2.2.1 hfB.2.2.2 hfF.1 hfF.2.2.1 hfF.2.2.2
        hfP.1 hfP.2.2.1 hfP.2.2.2 hfN.1 hfN.2.2.1 hfN.2.2.2 hP hN]
      simp only [coalesce_spec]
      rw [if_neg (fun hc => hN hc.2), if_neg (fun hc => hnP hc.1),
        if_neg (fun hc => hN hc.2)]
      rw [Nat.add_comm (GET_SIZE st (HDRP b))
        (GET_SIZE st (HDRP (PREV_BLKP st b)))]

/-! ### C5: the split policy of `place` -/

/-- C5: `place(B, a)` on a free block of size `size(B) ≥ a` follows the
specification's split policy, with all positions computed up front from
the pre-state (`place_spec`): with remainder `r = size(B) - a`, when
`r ≤ 16` the whole block is marked allocated and `B` is returned; when
`a ≥ 100` the lower fragment of size `r` stays free and is re-inserted
while the allocation goes to the upper fragment `B + r`, which is
returned with its tags written RA-clear; otherwise the allocation goes
to the lower fragment, the upper fragment `B + a` of size `r` is
written free with RA clear and inserted, and `B` is returned. -/
theorem place_follows_spec (fuel : Nat) (st : State) (b a : Nat)
    (hb : 8 ≤ b) (ha8 : a % 8 = 0) (ha0 : a ≠ 0)
    (hale : a ≤ GET_SIZE st (HDRP b))
    (hslt : GET_SIZE st (HDRP b) + 8 < M32)
    (hfr : placeFrameOK fuel st b a) :
    place fuel st b a = place_spec fuel st b a := by
  have hM : M32 = 4294967296 := rfl
  have h8s : GET_SIZE st (HDRP b) % 8 = 0 := GET_SIZE_mod8 st (HDRP b)
  have hslt' : GET_SIZE st (HDRP b) + 8 < 4294967296 := by rw [← hM]; exact hslt
  have ha8' : 8 ≤ a := by omega
  have hrs : sub32 (GET_SIZE st (HDRP b)) a = GET_SIZE st (HDRP b) - a :=
    sub32_of_le hale (GET_SIZE_lt st (HDRP b))
  have hr8 : (GET_SIZE st (HDRP b) - a) % 8 = 0 := by omega
  have hrlt : GET_SIZE st (HDRP b) - a + 8 < M32 := by rw [hM]; omega
  have halt : a + 8 < M32 := by rw [hM]; omega
  simp only [place, place_spec, hrs]
  rw [show DSIZE * 2 = 2 * 8 from rfl]
  by_cases h1 : GET_SIZE st (HDRP b) - a ≤ 2 * 8
  · rw [if_pos h1, if_pos h1]
    have e1 : FTRP (PUT (delete_node st b) (HDRP b)
        (PACK (GET_SIZE st (HDRP b)) 1)) b
        = b + GET_SIZE st (HDRP b) - DSIZE := by
      rw [FTRP_eq, GET_SIZE_PUT_PACK _ _ _ _ h8s hslt]
    rw [e1]
  · rw [if_neg h1, if_neg h1]
    by_cases h2 : 100 ≤ a
    · rw [if_pos h2, if_pos h2]
      have e1 : FTRP (PUT (delete_node st b) (HDRP b)
          (PACK (GET_SIZE st (HDRP b) - a) 0)) b
          = b + (GET_SIZE st (HDRP b) - a) - DSIZE := by
        rw [FTRP_eq, GET_SIZE_PUT_PACK _ _ _ _ hr8 hrlt]
      rw [e1]
      have hne1 : HDRP b ≠ b + (GET_SIZE st (HDRP b) - a) - DSIZE := by
        show b - 4 ≠ b + (GET_SIZE st (HDRP b) - a) - 8
        omega
      have e2 : NEXT_BLKP (PUT (PUT (delete_node st b) (HDRP b)
          (PACK (GET_SIZE st (HDRP b) - a) 0))
          (b + (GET_SIZE st (HDRP b) - a) - DSIZE)
          (PACK (GET_SIZE st (HDRP b) - a) 0)) b
          = b + (GET_SIZE st (HDRP b) - a) := by
        rw [NEXT_BLKP_eq, GET_SIZE_PUT_ne hne1,
          GET_SIZE_PUT_PACK _ _ _ _ hr8 hrlt]
      rw [e2]
      have hne2 : HDRP b ≠ HDRP (b + (GET_SIZE st (HDRP b) - a)) := by
        show b - 4 ≠ b + (GET_SIZE st (HDRP b) - a) - 4
        omega
      have e3 : NEXT_BLKP (PUT_NOTAG (PUT (PUT (delete_node st b) (HDRP b)
          (PACK (GET_SIZE st (HDRP b) - a) 0))
          (b + (GET_SIZE st (HDRP b) - a) - DSIZE)
          (PACK (GET_SIZE st (HDRP b) - a) 0))
          (HDRP (b + (GET_SIZE st (HDRP b) - a))) (PACK a 1)) b
          = b + (GET_SIZE st (HDRP b) - a) := by
        rw [NEXT_BLKP_eq, GET_SIZE_PUT_NOTAG_ne hne2, GET_SIZE_PUT_ne hne1,
          GET_SIZE_PUT_PACK _ _ _ _ hr8 hrlt]
      rw [e3]
      have e4 : FTRP (PUT_NOTAG (PUT (PUT (delete_node st b) (HDRP b)
          (PACK (GET_SIZE st (HDRP b) - a) 0))
          (b + (GET_SIZE st (HDRP b) - a) - DSIZE)
          (PACK (GET_SIZE st (HDRP b) - a) 0))
          (HDRP (b + (GET_SIZE st (HDRP b) - a))) (PACK a 1))
          (b + (GET_SIZE st (HDRP b) - a))
          = b + (GET_SIZE st (HDRP b) - a) + a - DSIZE := by
        rw [FTRP_eq, GET_SIZE_PUT_NOTAG_PACK _ _ _ _ ha8 halt]
      rw [e4]
      simp only [placeFrameOK] at hfr
      have hne3 : HDRP b ≠ b + (GET_SIZE st (HDRP b) - a) + a - DSIZE := by
        show b - 4 ≠ b + (GET_SIZE st (HDRP b) - a) + a - 8
        omega
      have e5 : NEXT_BLKP (insert_node fuel (PUT_NOTAG (PUT_NOTAG (PUT (PUT
          (delete_node st b) (HDRP b) (PACK (GET_SIZE st (HDRP b) - a) 0))
          (b + (GET_SIZE st (HDRP b) - a) - DSIZE)
          (PACK (GET_SIZE st (HDRP b) - a) 0))
          (HDRP (b + (GET_SIZE st (HDRP b) - a))) (PACK a 1))
          (b + (GET_SIZE st (HDRP b) - a) + a - DSIZE) (PACK a 1)) b
          (GET_SIZE st (HDRP b) - a)) b
          = b + (GET_SIZE st (HDRP b) - a) := by
        rw [NEXT_BLKP_eq, GET_SIZE_insert_node hfr, GET_SIZE_PUT_NOTAG_ne hne3,
          GET_SIZE_PUT_NOTAG_ne hne2, GET_SIZE_PUT_ne hne1,
          GET_SIZE_PUT_PACK _ _ _ _ hr8 hrlt]
      rw [e5]
    · rw [if_neg h2, if_neg h2]
      have e1 : FTRP (PUT (delete_node st b) (HDRP b) (PACK a 1)) b
          = b + a - DSIZE := by
        rw [FTRP_eq, GET_SIZE_PUT_PACK _ _ _ _ ha8 halt]
      rw [e1]
      have hne1 : HDRP b ≠ b + a - DSIZE := by
        show b - 4 ≠ b + a - 8
        omega
      have e2 : NEXT_BLKP (PUT (PUT (delete_node st b) (HDRP b) (PACK a 1))
          (b + a - DSIZE) (PACK a 1)) b = b + a := by
        rw [NEXT_BLKP_eq, GET_SIZE_PUT_ne hne1,
          GET_SIZE_PUT_PACK _ _ _ _ ha8 halt]
      rw [e2]
      have hne2 : HDRP b ≠ HDRP (b + a) := by
        show b - 4 ≠ b + a - 4
        omega
      have e3 : NEXT_BLKP (PUT_NOTAG (PUT (PUT (delete_node st b) (HDRP b)
          (PACK a 1)) (b + a - DSIZE) (PACK a 1)) (HDRP (b + a))
          (PACK (GET_SIZE st (HDRP b) - a) 0)) b = b + a := by
        rw [NEXT_BLKP_eq, GET_SIZE_PUT_NOTAG_ne hne2, GET_SIZE_PUT_ne hne1,
          GET_SIZE_PUT_PACK _ _ _ _ ha8 halt]
      rw [e3]
      have e4 : FTRP (PUT_NOTAG (PUT (PUT (delete_node st b) (HDRP b)
          (PACK a 1)) (b + a - DSIZE) (PACK a 1)) (HDRP (b + a))
          (PACK (GET_SIZE st (HDRP b) - a) 0)) (b + a)
          = b + a + (GET_SIZE st (HDRP b) - a) - DSIZE := by
        rw [FTRP_eq, GET_SIZE_PUT_NOTAG_PACK _ _ _ _ hr8 hrlt]
      rw [e4]
      have hne3 : HDRP b ≠ b + a + (GET_SIZE st (HDRP b) - a) - DSIZE := by
        show b - 4 ≠ b + a + (GET_SIZE st (HDRP b) - a) - 8
        omega
      have e5 : NEXT_BLKP (PUT_NOTAG (PUT_NOTAG (PUT (PUT (delete_node st b)
          (HDRP b) (PACK a 1)) (b + a - DSIZE) (PACK a 1)) (HDRP (b + a))
          (PACK (GET_SIZE st (HDRP b) - a) 0))
          (b + a + (GET_SIZE st (HDRP b) - a) - DSIZE)
          (PACK (GET_SIZE st (HDRP b) - a) 0)) b = b + a := by
        rw [NEXT_BLKP_eq, GET_SIZE_PUT_NOTAG_ne hne3, GET_SIZE_PUT_NOTAG_ne hne2,
          GET_SIZE_PUT_ne hne1, GET_SIZE_PUT_PACK _ _ _ _ ha8 halt]
      rw [e5]

theorem place_follows_spec_witness :
    (8 ≤ 144 ∧ 16 % 8 = 0 ∧ (16 : Nat) ≠ 0 ∧ 16 ≤ GET_SIZE q7 (HDRP 144) ∧
      GET_SIZE q7 (HDRP 144) + 8 < M32 ∧ placeFrameOK 100 q7 144 16) ∧
    place 100 q7 144 16 = place_spec 100 q7 144 16 :=
  ⟨by decide,
   place_follows_spec 100 q7 144 16 (by decide) (by decide) (by decide)
     (by decide) (by decide) (by decide)⟩

/-! ### C6: content preservation of `mm_realloc` -/

/-- C6: `mm_realloc(p, s)` with `s > 0` preserves the payload: the
first `min(s, old_payload)` bytes reachable through the returned
pointer equal the first `min(s, old_payload)` bytes of `p`'s payload
before the call, where `old_payload = size(p) - DSIZE`.  The four
conjuncts cover the four code paths — in-place with enough slack (the
state is untouched), in-place growth into the next block without and
with a heap extension (under the non-aliasing side conditions that the
free-list unlink and the extension write outside the preserved words,
and that the grown block still covers them), and relocation via
`mm_malloc` / `memcpy` / `mm_free` (under the side conditions that the
allocation and the final free write outside the preserved words and
that the copy's source and destination words do not overlap). -/
theorem realloc_preserves_payload (fuel : Nat) (st stE stm st1 : State)
    (ptr size q ns n np : Nat) (rem : Int)
    (hs : size ≠ 0) (hptr : 8 ≤ ptr)
    (hns : adjustSize size + REALLOC_BUFFER = ns)
    (hrem : toInt32 (sub32 ((GET_SIZE st (HDRP ptr) +
      GET_SIZE st (HDRP (NEXT_BLKP st ptr))) % M32) ns) = rem)
    (hn : min size (GET_SIZE st (HDRP ptr) - DSIZE) = n)
    (hms : mm_malloc fuel st (ns - DSIZE) = (np, stm))
    (hst1 : memcpy stm np ptr (min size ns) = st1) :
    (¬ toInt32 (sub32 (GET_SIZE st (HDRP ptr)) ns) < 0 →
      (mm_realloc fuel st ptr size).1 = ptr ∧
      ∀ i, i < n →
        getByte (mm_realloc fuel st ptr size).2 (ptr + i) =
          getByte st (ptr + i)) ∧
    (toInt32 (sub32 (GET_SIZE st (HDRP ptr)) ns) < 0 →
      (GET_ALLOC st (HDRP (NEXT_BLKP st ptr)) = 0 ∨
        GET_SIZE st (HDRP (NEXT_BLKP st ptr)) = 0) →
      ¬ rem < 0 →
      (∀ i, i < n →
        (ptr + i) - (ptr + i) % 4 ∉ deleteWrites st (NEXT_BLKP st ptr)) →
      ((ns : Int) + rem).toNat % 8 = 0 →
      ((ns : Int) + rem).toNat + 8 < M32 →
      n + 8 ≤ ((ns : Int) + rem).toNat →
      (mm_realloc fuel st ptr size).1 = ptr ∧
      ∀ i, i < n →
        getByte (mm_realloc fuel st ptr size).2 (ptr + i) =
          getByte st (ptr + i)) ∧
    (toInt32 (sub32 (GET_SIZE st (HDRP ptr)) ns) < 0 →
      (GET_ALLOC st (HDRP (NEXT_BLKP st ptr)) = 0 ∨
        GET_SIZE st (HDRP (NEXT_BLKP st ptr)) = 0) →
      rem < 0 →
      extend_heap fuel st (max (-rem) (CHUNKSIZE : Int)).toNat = some (q, stE) →
      (∀ i, i < n →
        (ptr + i) - (ptr + i) % 4 ∉
          extendWrites fuel st (max (-rem) (CHUNKSIZE : Int)).toNat) →
      (∀ i, i < n →
        (ptr + i) - (ptr + i) % 4 ∉ deleteWrites stE (NEXT_BLKP stE ptr)) →
      ((ns : Int) + (rem + max (-rem) (CHUNKSIZE : Int))).toNat % 8 = 0 →
      ((ns : Int) + (rem + max (-rem) (CHUNKSIZE : Int))).toNat + 8 < M32 →
      n + 8 ≤ ((ns : Int) + (rem + max (-rem) (CHUNKSIZE : Int))).toNat →
      (mm_realloc fuel st ptr size).1 = ptr ∧
      ∀ i, i < n →
        getByte (mm_realloc fuel st ptr size).2 (ptr + i) =
          getByte st (ptr + i)) ∧
    (toInt32 (sub32 (GET_SIZE st (HDRP ptr)) ns) < 0 →
      ¬ (GET_ALLOC st (HDRP (NEXT_BLKP st ptr)) = 0 ∨
        GET_SIZE st (HDRP (NEXT_BLKP st ptr)) = 0) →
      size + DSIZE + 7 < M32 →
      (∀ i, i < n →
        (ptr + i) - (ptr + i) % 4 ∉ mallocWrites fuel st (ns - DSIZE)) →
      (∀ u, u < min size ns → ∀ v, v < min size ns →
        (ptr + u) - (ptr + u) % 4 ≠ (np + v) - (np + v) % 4) →
      (∀ i, i < n →
        (np + i) - (np + i) % 4 ∉ freeWrites fuel st1 ptr) →
      (mm_realloc fuel st ptr size).1 = np ∧
      ∀ i, i < n →
        getByte (mm_realloc fuel st ptr size).2 (np + i) =
          getByte st (ptr + i)) := by
  have hD : DSIZE = 8 := rfl
  refine ⟨?_, ?_, ?_, ?_⟩
  · -- in place, enough slack
    intro hA
    simp only [mm_realloc, if_neg hs]
    rw [hns, if_neg hA]
    simp only [realloc_finish]
    exact ⟨trivial, fun _ _ => trivial⟩
  · -- in-place growth, no heap extension
    intro hbb hnext hrem0 hfrd hM1 hM2 hM3
    simp only [mm_realloc, if_neg hs]
    rw [hns, if_pos hbb, if_pos hnext, hrem, if_neg hrem0]
    simp only [realloc_finish]
    refine ⟨trivial, fun i hi => ?_⟩
    apply getByte_congr
    have hFT : FTRP (PUT_NOTAG (delete_node st (NEXT_BLKP st ptr)) (HDRP ptr)
        (PACK ((ns : Int) + rem).toNat 1)) ptr =
        ptr + ((ns : Int) + rem).toNat - DSIZE := by
      rw [FTRP_eq, GET_SIZE_PUT_NOTAG_PACK _ _ _ _ hM1 hM2]
    rw [hFT]
    have hW1 : (ptr + i) - (ptr + i) % 4 ≠ ptr + ((ns : Int) + rem).toNat - DSIZE := by
      rw [hD]
      omega
    have hW2 : (ptr + i) - (ptr + i) % 4 ≠ HDRP ptr := by
      show (ptr + i) - (ptr + i) % 4 ≠ ptr - 4
      omega
    rw [GET_PUT_NOTAG_ne hW1, GET_PUT_NOTAG_ne hW2,
      GET_delete_node (hfrd i hi)]
  · -- in-place growth via heap extension
    intro hbb hnext hrem0 hE hfre hfrd hM1 hM2 hM3
    simp only [mm_realloc, if_neg hs]
    rw [hns, if_pos hbb, if_pos hnext, hrem, if_pos hrem0, hE]
    simp only [realloc_finish]
    refine ⟨trivial, fun i hi => ?_⟩
    apply getByte_congr
    have hFT : FTRP (PUT_NOTAG (delete_node stE (NEXT_BLKP stE ptr)) (HDRP ptr)
        (PACK ((ns : Int) + (rem + max (-rem) (CHUNKSIZE : Int))).toNat 1)) ptr =
        ptr + ((ns : Int) + (rem + max (-rem) (CHUNKSIZE : Int))).toNat - DSIZE := by
      rw [FTRP_eq, GET_SIZE_PUT_NOTAG_PACK _ _ _ _ hM1 hM2]
    rw [hFT]
    have hW1 : (ptr + i) - (ptr + i) % 4 ≠
        ptr + ((ns : Int) + (rem + max (-rem) (CHUNKSIZE : Int))).toNat - DSIZE := by
      rw [hD]
      omega
    have hW2 : (ptr + i) - (ptr + i) % 4 ≠ HDRP ptr := by
      show (ptr + i) - (ptr + i) % 4 ≠ ptr - 4
      omega
    rw [GET_PUT_NOTAG_ne hW1, GET_PUT_NOTAG_ne hW2,
      GET_delete_node (hfrd i hi)]
    exact GET_extend hE (hfre i hi)
  · -- relocation
    intro hbb hnextNot harith hfm hdisj hff
    simp only [mm_realloc, if_neg hs]
    rw [hns, if_pos hbb, if_neg hnextNot]
    simp only [hms, realloc_finish]
    rw [hst1]
    refine ⟨trivial, fun i hi => ?_⟩
    have hnle : n ≤ size := by
      rw [← hn]
      exact Nat.min_le_left _ _
    have hstep1 : getByte (mm_free fuel st1 ptr) (np + i) = getByte st1 (np + i) :=
      getByte_congr (GET_mm_free (hff i hi))
    have hminns : min size ns = size := by
      have := adjustSize_ge harith
      have hRB : REALLOC_BUFFER = 128 := rfl
      omega
    have hi2 : i < min size ns := by
      rw [hminns]
      omega
    have hstep2 : getByte st1 (np + i) = getByte stm (ptr + i) := by
      rw [← hst1]
      exact memcpy_get hi2 (fun u v hu hv => hdisj u hu v hv)
    have hstep3 : getByte stm (ptr + i) = getByte st (ptr + i) := by
      refine getByte_congr ?_
      have h0 := GET_mm_malloc (hfm i hi)
      rw [hms] at h0
      exact h0
    rw [hstep1, hstep2, hstep3]

/-- Witness for C6: all four paths at concrete inputs — no-op resize on
`bigSlackState`; in-place growth into the 400-byte neighbour on `sG`;
in-place growth via a heap extension on `sX`; relocation on `q3`
(block 80, next block allocated), whose new payload lands at 4024. -/
theorem realloc_preserves_payload_witness :
    ((mm_realloc 100 bigSlackState 16 16).1 = 16 ∧
      ∀ i, i < 16 → getByte (mm_realloc 100 bigSlackState 16 16).2 (16 + i) =
        getByte bigSlackState (16 + i)) ∧
    ((mm_realloc 100 sG 16 100).1 = 16 ∧
      ∀ i, i < 40 → getByte (mm_realloc 100 sG 16 100).2 (16 + i) =
        getByte sG (16 + i)) ∧
    ((mm_realloc 100 sX 16 16).1 = 16 ∧
      ∀ i, i < 8 → getByte (mm_realloc 100 sX 16 16).2 (16 + i) =
        getByte sX (16 + i)) ∧
    ((mm_realloc 100 q3 80 16).1 = 4024 ∧
      ∀ i, i < 16 → getByte (mm_realloc 100 q3 80 16).2 (4024 + i) =
        getByte q3 (80 + i)) :=
  ⟨(realloc_preserves_payload 100 bigSlackState bigSlackState
      (mm_malloc 100 bigSlackState (152 - DSIZE)).2
      (memcpy (mm_malloc 100 bigSlackState (152 - DSIZE)).2
        (mm_malloc 100 bigSlackState (152 - DSIZE)).1 16 (min 16 152))
      16 16 0 152 16 (mm_malloc 100 bigSlackState (152 - DSIZE)).1 8
      (by decide) (by decide) (by decide) (by decide) (by decide) Prod.mk.eta.symm rfl).1
    (by decide),
   (realloc_preserves_payload 100 sG sG
      (mm_malloc 100 sG (240 - DSIZE)).2
      (memcpy (mm_malloc 100 sG (240 - DSIZE)).2
        (mm_malloc 100 sG (240 - DSIZE)).1 16 (min 100 240))
      16 100 0 240 40 (mm_malloc 100 sG (240 - DSIZE)).1 208
      (by decide) (by decide) (by decide) (by decide) (by decide) Prod.mk.eta.symm rfl).2.1
    (by decide) (by decide) (by decide) (by decide) (by decide) (by decide)
    (by decide),
   (realloc_preserves_payload 100 sX stEX
      (mm_malloc 100 sX (152 - DSIZE)).2
      (memcpy (mm_malloc 100 sX (152 - DSIZE)).2
        (mm_malloc 100 sX (152 - DSIZE)).1 16 (min 16 152))
      16 16 32 152 8 (mm_malloc 100 sX (152 - DSIZE)).1 (-120)
      (by decide) (by decide) (by decide) (by decide) (by decide) Prod.mk.eta.symm rfl).2.2.1
    (by decide) (by decide) (by decide) (by decide) (by decide) (by decide)
    (by decide) (by decide) (by decide),
   (realloc_preserves_payload 100 q3 q3 stmD
      (memcpy stmD 4024 80 (min 16 152))
      80 16 0 152 16 4024 (-88)
      (by decide) (by decide) (by decide) (by decide) (by decide) (by decide)
      rfl).2.2.2
    (by decide) (by decide) (by decide) (by decide) (by decide) (by decide)⟩

theorem coalesce_follows_spec_witness :
    (8 ≤ 112 ∧ 4 ≤ PREV_BLKP q7 112 ∧ 4 ≤ NEXT_BLKP q7 112 ∧
      PREV_BLKP q7 112 ≠ 112 ∧ PREV_BLKP q7 112 ≠ NEXT_BLKP q7 112 ∧
      GET_SIZE q7 (HDRP 112) ≠ 0 ∧ HDRP (PREV_BLKP q7 112) ≠ 112 - DSIZE ∧
      GET_SIZE q7 (HDRP (PREV_BLKP q7 112)) + GET_SIZE q7 (HDRP 112) +
        GET_SIZE q7 (HDRP (NEXT_BLKP q7 112)) + 8 < M32 ∧
      coalesceFrameOK q7 112) ∧
    coalesce 100 q7 112 = coalesce_spec 100 q7 112 :=
  ⟨by decide,
   coalesce_follows_spec 100 q7 112 (by decide) (by decide) (by decide)
     (by decide) (by decide) (by decide) (by decide) (by decide) (by decide)⟩

end MM
